import Mathlib

/-!
# CloudPaste `docker-server.js` — verification development

Shallow embedding of the Express/Cloudflare-Workers compatibility bridge
(`src/backend/docker-server.js`) of the CloudPaste repository, together with
proofs and refutations of the specification's claims about it.

The embedding models:
* the `SQLiteAdapter` class (`prepare`/`bind`/`run`/`all`/`first`/`batch`)
  over an abstract engine oracle, with SQLite's `BEGIN TRANSACTION` /
  `COMMIT` / `ROLLBACK` connection semantics made explicit;
* the multipart spooling middleware and its event handlers as a small
  state machine over stream/response events;
* the lazy database-initialization middleware;
* the WebDAV `/dav` middleware (preflight short-circuit);
* `createAdaptedRequest` (canonical request construction) and
  `convertWorkerResponseToExpress` (response translation), including an
  executable JSON printer/parser pair modelling `JSON.stringify` /
  `JSON.parse` on the integer-numbered fragment of JSON;
* `createErrorResponse` and the wildcard route's catch block.
-/

set_option linter.unusedVariables false

namespace CloudPaste

/-! ## Persistence adapter: engine model

`docker-server.js` talks to SQLite through the `sqlite` npm package: a
single shared connection offering `run`, `all`, `get`, `exec`. We model the
engine abstractly: an oracle says how each non-transaction-control SQL text
(with positional parameters) transforms the database contents `δ` and what
each query returns. The connection-level transaction statements that the
adapter itself issues (`BEGIN TRANSACTION` / `COMMIT` / `ROLLBACK`) are
interpreted by the connection model, the way SQLite interprets them. -/

/-- A result row, as the `sqlite` package returns it (column name/value). -/
abbrev Row := List (String × String)

/-- Outcome of applying a data statement to contents `δ`: a new contents
value and an engine result token, or an engine error. `autoRollback` models
SQLite's automatic rollback of the enclosing transaction on certain
failures (the situation in which the adapter's own later `ROLLBACK` fails
with "no transaction is active"). -/
inductive StmtOut (δ : Type) where
  | ok (next : δ) (res : Nat)
  | fail (e : String) (autoRollback : Bool)

/-- Abstract engine oracle: semantics of data statements and queries. -/
structure EngineModel (δ : Type) where
  apply : δ → String → List String → StmtOut δ
  query : δ → String → List String → Except String (List Row)

/-- State of the single shared SQLite connection: durable committed
contents, plus the working contents of an open transaction, if any. -/
structure DbState (δ : Type) where
  committed : δ
  txn : Option δ

/-- The contents a statement executes against: the open transaction's
working copy when a transaction is active, else the committed contents. -/
def DbState.cur {δ : Type} (st : DbState δ) : δ :=
  st.txn.getD st.committed

/-- Whether an SQL text is one of the transaction-control statements that
the SQLite connection interprets specially. -/
def isTxnControl (sql : String) : Bool :=
  sql = "BEGIN TRANSACTION" || sql = "COMMIT" || sql = "ROLLBACK"

/-- Core of `this.db.run` / `this.db.exec` on the shared connection:
transaction-control texts update the transaction state (failing the way
SQLite fails when they are used out of place); every other text is handed
to the engine oracle against the current contents. Errors are returned
together with the connection state left behind (JS exceptions do not undo
state). -/
def execSql {δ : Type} (M : EngineModel δ) (sql : String) (params : List String)
    (st : DbState δ) : Except String Nat × DbState δ :=
  if sql = "BEGIN TRANSACTION" then
    match st.txn with
    | some _ => (Except.error "cannot start a transaction within a transaction", st)
    | none => (Except.ok 0, { st with txn := some st.committed })
  else if sql = "COMMIT" then
    match st.txn with
    | some d => (Except.ok 0, { committed := d, txn := none })
    | none => (Except.error "cannot commit - no transaction is active", st)
  else if sql = "ROLLBACK" then
    match st.txn with
    | some _ => (Except.ok 0, { st with txn := none })
    | none => (Except.error "cannot rollback - no transaction is active", st)
  else
    match M.apply st.cur sql params with
    | StmtOut.ok d r =>
        (Except.ok r,
          match st.txn with
          | some _ => { st with txn := some d }
          | none => { st with committed := d })
    | StmtOut.fail e auto =>
        (Except.error e, if auto then { st with txn := none } else st)

/-- `this.db.all` / `this.db.get` read against the current contents and do
not change state; failure is the oracle's query failure. -/
def querySql {δ : Type} (M : EngineModel δ) (sql : String) (params : List String)
    (st : DbState δ) : Except String (List Row) :=
  M.query st.cur sql params

/-! ## Persistence adapter: prepared statements (`SQLiteAdapter.prepare`) -/

/-- The duck-typed object returned by `SQLiteAdapter.prepare(sql)`: it only
captures the SQL text and bound positional parameters (`params: []`
initially). Constructing it involves no engine interaction at all. -/
structure Statement where
  sql : String
  params : List String
deriving DecidableEq

/-- `SQLiteAdapter.prepare(sql)`: pure construction of the statement
object; succeeds for any string, including syntactically invalid SQL. -/
def SQLiteAdapter.prepare (sql : String) : Statement :=
  { sql := sql, params := [] }

/-- `Statement.bind(...args)`: replaces (not appends) the parameter list. -/
def Statement.bind (stmt : Statement) (args : List String) : Statement :=
  { stmt with params := args }

/-- The value `run()` resolves with on success. -/
structure RunResult where
  success : Bool
deriving DecidableEq

/-- `run()`: `try { await this._db.run(this.sql, ...this.params); return
{ success: true } } catch (error) { log; throw error }`. -/
def Statement.runStmt {δ : Type} (stmt : Statement) (M : EngineModel δ)
    (st : DbState δ) : Except String RunResult × DbState δ :=
  match execSql M stmt.sql stmt.params st with
  | (Except.ok _, st') => (Except.ok { success := true }, st')
  | (Except.error e, st') => (Except.error e, st')

/-- The value `all()` resolves with on success: rows wrapped in `results`. -/
structure AllResult where
  results : List Row
deriving DecidableEq

/-- `all()`: `try { const results = await this._db.all(...); return
{ results } } catch (error) { log; throw error }`. -/
def Statement.allStmt {δ : Type} (stmt : Statement) (M : EngineModel δ)
    (st : DbState δ) : Except String AllResult :=
  match querySql M stmt.sql stmt.params st with
  | Except.ok rows => Except.ok { results := rows }
  | Except.error e => Except.error e

/-- `first()`: `try { return await this._db.get(...) } catch { log; throw }`;
the `sqlite` package's `get` resolves with the first row or `undefined`. -/
def Statement.firstStmt {δ : Type} (stmt : Statement) (M : EngineModel δ)
    (st : DbState δ) : Except String (Option Row) :=
  match querySql M stmt.sql stmt.params st with
  | Except.ok rows => Except.ok rows.head?
  | Except.error e => Except.error e

/-! ## Persistence adapter: `batch` -/

/-- The four shapes of batch entries accepted by `SQLiteAdapter.batch`,
mirroring the javascript dispatch in order: a raw SQL string
(`typeof statement === "string"`, executed via `db.exec`), an object with
`sql` and an array `params` (via `db.run(sql, ...params)`), an object with
`sql` and no `params` (via `db.run(sql)`), and the fallback
prepared-statement shape (`statement.text || statement.sql`, optional
`params`, executed via `prepare(...).bind(...).run()`). -/
inductive BatchStmt where
  | raw (sql : String)
  | sqlParams (sql : String) (params : List String)
  | sqlOnly (sql : String)
  | preparedLike (text : String) (params : Option (List String))
deriving DecidableEq

/-- The SQL text a batch entry carries. -/
def BatchStmt.sqlText : BatchStmt → String
  | BatchStmt.raw s => s
  | BatchStmt.sqlParams s _ => s
  | BatchStmt.sqlOnly s => s
  | BatchStmt.preparedLike t _ => t

/-- One entry of the result sequence `batch` resolves with. The first
three shapes push `{ success: true, result }`; the prepared-statement
fallback pushes the bare `{ success: true }` that `run()` returns. -/
structure BatchResult where
  success : Bool
  result : Option Nat
deriving DecidableEq

/-- Execution of a single batch entry, following the javascript dispatch. -/
def runBatchStmt {δ : Type} (M : EngineModel δ) (stmt : BatchStmt)
    (st : DbState δ) : Except String BatchResult × DbState δ :=
  match stmt with
  | BatchStmt.raw sql =>
      match execSql M sql [] st with
      | (Except.ok r, st') => (Except.ok { success := true, result := some r }, st')
      | (Except.error e, st') => (Except.error e, st')
  | BatchStmt.sqlParams sql ps =>
      match execSql M sql ps st with
      | (Except.ok r, st') => (Except.ok { success := true, result := some r }, st')
      | (Except.error e, st') => (Except.error e, st')
  | BatchStmt.sqlOnly sql =>
      match execSql M sql [] st with
      | (Except.ok r, st') => (Except.ok { success := true, result := some r }, st')
      | (Except.error e, st') => (Except.error e, st')
  | BatchStmt.preparedLike text ps =>
      let s := SQLiteAdapter.prepare text
      let s := match ps with
               | some args => s.bind args
               | none => s
      match Statement.runStmt s M st with
      | (Except.ok rr, st') => (Except.ok { success := rr.success, result := none }, st')
      | (Except.error e, st') => (Except.error e, st')

/-- The `for (const statement of statements)` loop: results accumulate in
input order; the first failure aborts the loop, producing no results. -/
def runBatchStmts {δ : Type} (M : EngineModel δ) (stmts : List BatchStmt)
    (st : DbState δ) : Except String (List BatchResult) × DbState δ :=
  match stmts with
  | [] => (Except.ok [], st)
  | stmt :: rest =>
      match runBatchStmt M stmt st with
      | (Except.ok r, st') =>
          match runBatchStmts M rest st' with
          | (Except.ok rs, st'') => (Except.ok (r :: rs), st'')
          | (Except.error e, st'') => (Except.error e, st'')
      | (Except.error e, st') => (Except.error e, st')

/-- `SQLiteAdapter.batch(statements)`: `BEGIN TRANSACTION`, run every
statement in order, `COMMIT`; on any failure the catch block attempts
`ROLLBACK` in its own try/catch (a rollback failure is only logged) and
re-throws the original error. -/
def SQLiteAdapter.batch {δ : Type} (M : EngineModel δ) (stmts : List BatchStmt)
    (st : DbState δ) : Except String (List BatchResult) × DbState δ :=
  match execSql M "BEGIN TRANSACTION" [] st with
  | (Except.error e, st') => (Except.error e, (execSql M "ROLLBACK" [] st').2)
  | (Except.ok _, st') =>
      match runBatchStmts M stmts st' with
      | (Except.ok rs, st'') =>
          match execSql M "COMMIT" [] st'' with
          | (Except.ok _, st3) => (Except.ok rs, st3)
          | (Except.error e, st3) => (Except.error e, (execSql M "ROLLBACK" [] st3).2)
      | (Except.error e, st'') => (Except.error e, (execSql M "ROLLBACK" [] st'').2)

/-- The effective positional parameters a batch entry is executed with
(the prepared-statement fallback binds only when `params` is present). -/
def BatchStmt.effParams : BatchStmt → List String
  | BatchStmt.raw _ => []
  | BatchStmt.sqlParams _ ps => ps
  | BatchStmt.sqlOnly _ => []
  | BatchStmt.preparedLike _ ps => ps.getD []

/-- The result entry pushed for a batch entry that succeeds with engine
token `r`. -/
def BatchStmt.mkResult : BatchStmt → Nat → BatchResult
  | BatchStmt.preparedLike _ _, _ => { success := true, result := none }
  | _, r => { success := true, result := some r }

/-- Atomic reference semantics of a batch: sequential execution of the
entries directly on contents `d`, stopping at (and reporting) the first
failing statement's error, producing one result per executed statement in
input order. `batch` is proved to refine this on transaction-control-free
batches. -/
def batchRef {δ : Type} (M : EngineModel δ) :
    List BatchStmt → δ → Except String (List BatchResult × δ)
  | [], d => Except.ok ([], d)
  | s :: rest, d =>
      match M.apply d s.sqlText s.effParams with
      | StmtOut.ok d' r =>
          match batchRef M rest d' with
          | Except.ok (rs, dFin) => Except.ok (s.mkResult r :: rs, dFin)
          | Except.error e => Except.error e
      | StmtOut.fail e _ => Except.error e

/-! ### Demonstration engine model (concrete witnesses) -/

/-- Concrete contents: the journal of applied SQL texts. `"BAD"` is the
one failing data statement, `"QBAD"` the one failing query. -/
def demoModel : EngineModel (List String) :=
  { apply := fun d sql _ =>
      if sql = "BAD" then StmtOut.fail "boom" false else StmtOut.ok (d ++ [sql]) 0
    query := fun _ sql _ =>
      if sql = "QBAD" then Except.error "qboom"
      else Except.ok [[("col", "v")]] }

/-! ## Lazy database-initialization middleware (lines 496-520)

`isDbInitialized` is a module-level mutable boolean. The middleware runs at
the start of every request: when the flag is unset it is set to `true`
*before* the initialization attempt; an initialization failure is caught
and only logged; the middleware then injects `req.env` and calls
`next()`. -/

/-- The module-level state the middleware reads and writes: the
idempotency flag, plus whether the database has actually been brought up
(observable through later queries succeeding). -/
structure ServerState where
  isDbInitialized : Bool
  dbReady : Bool
deriving DecidableEq

/-- One run of the database-initialization middleware for one request.
`initOutcome` is whether `sqliteAdapter.init()` + `checkAndInitDatabase`
would succeed if attempted now. Returns the new state, whether an
initialization attempt was made, and whether `next()` was called (the
inner try/catch swallows initialization failures, so the middleware never
responds with an error for them). -/
def dbInitMiddleware (initOutcome : Bool) (s : ServerState) :
    ServerState × Bool × Bool :=
  if s.isDbInitialized then (s, false, true)
  else ({ isDbInitialized := true, dbReady := initOutcome }, true, true)

/-! ## WebDAV protocol-surface middleware (lines 292-306)

The `"WebDAV基础方法支持"` middleware: for every request whose path starts
with `/dav` it sets `Access-Control-Allow-Methods` and `Allow` to the
configured supported-method set joined with commas, and answers `OPTIONS`
requests immediately with status 204 plus the configured `DAV` /
`MS-Author-Via` protocol-identification headers, never calling `next()`
for them. The configuration comes from `getWebDAVConfig()` (an external
collaborator) and is abstract here; third-party pass-through middlewares
installed earlier (cors with the configured options, method-override) are
modelled as pass-throughs. -/

/-- `prefix.isPrefixOf s`, on the character lists of the strings (the
meaning of javascript `String.prototype.startsWith`; kept kernel-reducible
for concrete evaluation). -/
def strStartsWith (s pre : String) : Bool :=
  pre.data.isPrefixOf s.data

/-- Occurrence of `pat` as a contiguous run of `l` (javascript
`String.prototype.includes`, on character lists). -/
def charsIncludes (pat : List Char) : List Char → Bool
  | [] => pat.isEmpty
  | c :: t => pat.isPrefixOf (c :: t) || charsIncludes pat t

/-- Javascript `s.includes(pat)`. -/
def strIncludes (s pat : String) : Bool :=
  charsIncludes pat.data s.data

/-- Javascript `array.join(",")`. -/
def joinComma : List String → String
  | [] => ""
  | [s] => s
  | s :: rest => s ++ "," ++ joinComma rest

/-- The configuration data consumed (not owned) by the middlewares:
the supported-verb set, the CORS allow-origin value fed to `corsOptions`
(lines 246-253), and the protocol-identification header values. -/
structure WebdavConfig where
  supportedMethods : List String
  corsAllowOrigin : String
  davHeader : String
  msAuthorVia : String

/-- Outcome of one Express middleware: either `next()` with accumulated
response headers, or an immediate response. -/
inductive DavOutcome where
  | halt (status : Nat) (headers : List (String × String))
  | next (headers : List (String × String))
deriving DecidableEq

/-- The npm `cors` middleware installed at line 285 with the options of
lines 246-253 (`origin` and `methods` from the WebDAV config,
`credentials: true`, `optionsSuccessStatus: 204`, `maxAge: 86400`) and
`preflightContinue` left at its default `false`: it terminates **every**
`OPTIONS` request itself — CORS headers, `Content-Length: 0`, status
204, `res.end()` — without calling `next()` and without any
preflight-header check; every other request gets the CORS headers and
continues. (The reflected `Access-Control-Allow-Headers` and the
configured expose-headers are omitted as irrelevant to the claims; no
modelled claim reads them.) -/
def corsMiddleware (cfg : WebdavConfig) (method : String) : DavOutcome :=
  if method = "OPTIONS" then
    DavOutcome.halt 204
      [("Access-Control-Allow-Origin", cfg.corsAllowOrigin),
       ("Access-Control-Allow-Credentials", "true"),
       ("Access-Control-Allow-Methods", joinComma cfg.supportedMethods),
       ("Access-Control-Max-Age", "86400"),
       ("Content-Length", "0")]
  else
    DavOutcome.next
      [("Access-Control-Allow-Origin", cfg.corsAllowOrigin),
       ("Access-Control-Allow-Credentials", "true")]

/-- The `/dav` middleware body (lines 292-306). -/
def davMiddleware (cfg : WebdavConfig) (method path : String) : DavOutcome :=
  if strStartsWith path "/dav" then
    let hdrs := [("Access-Control-Allow-Methods", joinComma cfg.supportedMethods),
                 ("Allow", joinComma cfg.supportedMethods)]
    if method = "OPTIONS" then
      DavOutcome.halt 204
        (hdrs ++ [("DAV", cfg.davHeader), ("MS-Author-Via", cfg.msAuthorVia)])
    else DavOutcome.next hdrs
  else DavOutcome.next []

/-- A response as written to the Express side. -/
structure SimpleResponse where
  status : Nat
  headers : List (String × String)
deriving DecidableEq

/-- Header lookup (first match wins, as with repeated `res.setHeader`
followed by a read). -/
def getHeader (hs : List (String × String)) (k : String) : Option String :=
  (hs.find? (fun p => p.1 = k)).map Prod.snd

/-- Dispatch of one request through the middleware chain in installation
order: the cors middleware (line 285) first, then the `/dav` middleware
(lines 292-306), then the business logic behind the wildcard route
(`app.fetch`). The method-override middlewares between them (lines
286-288) are pass-throughs for requests without an override header. A
halting middleware ends the response; nothing after it runs. Returns the
response and whether business logic ran. -/
def dispatchDav (cfg : WebdavConfig) (app : String → String → SimpleResponse)
    (method path : String) : SimpleResponse × Bool :=
  match corsMiddleware cfg method with
  | DavOutcome.halt status hdrs => ({ status := status, headers := hdrs }, false)
  | DavOutcome.next hdrs0 =>
      match davMiddleware cfg method path with
      | DavOutcome.halt status hdrs =>
          ({ status := status, headers := hdrs0 ++ hdrs }, false)
      | DavOutcome.next hdrs =>
          let r := app method path
          ({ r with headers := hdrs0 ++ hdrs ++ r.headers }, true)

/-! ## Error translation at the Bridge (lines 197-219 and 529-538) -/

/-- A javascript error value as the Bridge's catch block inspects it:
optional raw message, optional stack, and an optional numeric `status`
(a non-numeric `status` behaves like an absent one, because of the
`typeof error.status === "number"` check). -/
structure JsError where
  message : Option String
  stack : Option String
  status : Option Int
deriving DecidableEq

/-- Modelled from the spec: `ApiStatus.INTERNAL_ERROR` is imported from
`./src/constants/index.js`, which is not among the sources; the spec
calls it the "default server-error status". -/
def ApiStatus_INTERNAL_ERROR : Int := 500

/-- The sanitized outward error body built by `createErrorResponse`:
status code, the *default* message (never the error's own), a generated
correlation id, `success: false` and `data: null`. By construction it has
no field for a stack trace or for the raw error message — those go only
to the log (where sensitive substrings are additionally masked). -/
structure ErrorBody where
  code : Int
  message : String
  errorId : String
  success : Bool
  data : Option Unit
deriving DecidableEq

/-- `createErrorResponse(error, status, defaultMessage)`. The correlation
id is generated from the clock and a random source; it enters the model as
the `errorId` input. -/
def createErrorResponse (errorId : String) (e : JsError) (status : Int)
    (defaultMessage : String) : ErrorBody :=
  { code := status, message := defaultMessage, errorId := errorId,
    success := false, data := none }

/-- The wildcard route's catch block: `const status = error.status &&
typeof error.status === "number" ? error.status : ApiStatus.INTERNAL_ERROR;
res.status(status).json(createErrorResponse(error, status))` — note the
truthiness requirement: a numeric but zero status falls back to the
default. -/
def wildcardCatch (errorId : String) (e : JsError) : Int × ErrorBody :=
  let status : Int :=
    match e.status with
    | some n => if n ≠ 0 then n else ApiStatus_INTERNAL_ERROR
    | none => ApiStatus_INTERNAL_ERROR
  (status, createErrorResponse errorId e status "服务器内部错误")

/-! ## Multipart spooling middleware (lines 311-370)

For `POST` requests whose `content-type` header includes
`multipart/form-data`, the body stream is piped unparsed into a temporary
file `os.tmpdir()/upload-<hex of crypto.randomBytes(16)>`;
`req.tempFilePath` is set as soon as the stream is established. Handlers
registered on the write stream, the response, and the request react to
completion/error events. All other requests fall through to the body
parsers. -/

/-- Hex digit used by `Buffer.toString("hex")`. -/
def hexDigitChar (n : Nat) : Char :=
  if n < 10 then Char.ofNat (48 + n) else Char.ofNat (87 + n)

/-- Two lowercase hex characters of one byte. -/
def hexByte (b : Nat) : List Char :=
  [hexDigitChar (b / 16 % 16), hexDigitChar (b % 16)]

/-- Characters of `Buffer.toString("hex")` of a byte sequence. -/
def hexChars : List Nat → List Char
  | [] => []
  | b :: t => hexByte b ++ hexChars t

/-- `crypto.randomBytes(16).toString("hex")` of the byte sequence. -/
def hexEncode (bytes : List Nat) : String :=
  ⟨hexChars bytes⟩

/-- The temp file name: `upload-<hex suffix>`. -/
def tempFileNameFor (randBytes : List Nat) : String :=
  "upload-" ++ hexEncode randBytes

/-- `path.join(os.tmpdir(), tempFileName)`. -/
def tempFilePathFor (tmpdir : String) (randBytes : List Nat) : String :=
  tmpdir ++ "/" ++ tempFileNameFor randBytes

/-- The request fields the spooling middleware consults. -/
structure SpoolReq where
  method : String
  contentType : Option String
deriving DecidableEq

/-- The middleware's guard: `req.method === "POST" &&
req.headers["content-type"] &&
req.headers["content-type"].includes("multipart/form-data")`. -/
def isSpooled (r : SpoolReq) : Bool :=
  r.method = "POST" &&
    (match r.contentType with
     | none => false
     | some ct => strIncludes ct "multipart/form-data")

/-- The per-request state the middleware and its event handlers act on:
whether the temp file currently exists on disk, the `req.tempFilePath`
annotation, whether the write stream is open, the `next()` invocations
made so far (`none` = `next()`, `some m` = `next(err)`), and how many
`fs.unlinkSync` attempts were made. -/
structure SpoolState where
  fileOnDisk : Bool
  tempFilePath : Option String
  streamOpen : Bool
  nextCalls : List (Option String)
  unlinkAttempts : Nat
deriving DecidableEq

/-- State right after the middleware body ran on a spooled request: the
write stream was created (so the temp file exists on disk), the request
was piped into it, and `req.tempFilePath` was set — all before any
completion event fires (`next()` has not been called yet). -/
def spoolSetup (tmpdir : String) (randBytes : List Nat) : SpoolState :=
  { fileOnDisk := true
    tempFilePath := some (tempFilePathFor tmpdir randBytes)
    streamOpen := true
    nextCalls := []
    unlinkAttempts := 0 }

/-- The stream/response/request events the registered handlers react to.
`resFinish` is Node's response `"finish"`: emitted only when the response
has been fully written out; a connection aborted mid-stream closes
without ever emitting it. -/
inductive SpoolEv where
  | fsFinish
  | fsError (msg : String)
  | resFinish
  | reqError (msg : String)
deriving DecidableEq

/-- The handlers registered by the middleware, as a step function:
* `fileStream "finish"`: `next()`;
* `fileStream "error"`: `fs.unlinkSync(tempFilePath)` in a try/catch whose
  failure is ignored, then `next(err)` — the `req.tempFilePath` reference
  is *not* cleared here;
* `res "finish"`: when `req.tempFilePath` is set, `fs.unlinkSync` it; on
  success also clear the reference (the `req.tempFilePath = null`
  assignment is skipped when `unlinkSync` throws first, e.g. the file was
  already removed);
* `req "error"`: `fileStream.end()` and `next(err)` — no unlink here. -/
def spoolStep (st : SpoolState) (ev : SpoolEv) : SpoolState :=
  match ev with
  | SpoolEv.fsFinish => { st with nextCalls := st.nextCalls ++ [none] }
  | SpoolEv.fsError m =>
      { st with fileOnDisk := false,
                unlinkAttempts := st.unlinkAttempts + 1,
                nextCalls := st.nextCalls ++ [some m] }
  | SpoolEv.resFinish =>
      match st.tempFilePath with
      | none => st
      | some _ =>
          if st.fileOnDisk then
            { st with fileOnDisk := false, tempFilePath := none,
                      unlinkAttempts := st.unlinkAttempts + 1 }
          else
            { st with unlinkAttempts := st.unlinkAttempts + 1 }
  | SpoolEv.reqError m =>
      { st with streamOpen := false, nextCalls := st.nextCalls ++ [some m] }

/-- A whole event history of one spooled request. -/
def runSpoolEvents (st : SpoolState) (evs : List SpoolEv) : SpoolState :=
  evs.foldl spoolStep st

/-- The ingestion decision for one request: spool to a temp file, or fall
through to the body parsers unparsed by this middleware. -/
inductive IngestDecision where
  | spool (path : String)
  | passThrough
deriving DecidableEq

/-- The middleware body: spooled requests get the temp file and the
per-request spool state; all other requests just `next()`. -/
def spoolMiddleware (r : SpoolReq) (tmpdir : String) (randBytes : List Nat) :
    IngestDecision × Option SpoolState :=
  if isSpooled r then
    (IngestDecision.spool (tempFilePathFor tmpdir randBytes),
      some (spoolSetup tmpdir randBytes))
  else (IngestDecision.passThrough, none)

/-- Invariant: once the `req.tempFilePath` reference is cleared the file
is also gone (the reference is cleared only on a successful unlink). -/
def spoolInv (st : SpoolState) : Prop :=
  st.tempFilePath = none → st.fileOnDisk = false

/-! ## JSON values, `JSON.stringify` and `JSON.parse`

The bridge serializes parsed JSON request bodies with `JSON.stringify`
and re-encodes JSON responses through `response.json()` (a `JSON.parse`)
followed by Express's `res.json` (a `JSON.stringify`). Both are modelled
executably on the integer-numbered fragment of JSON (javascript numbers
are restricted to integers here; the printer is the canonical
whitespace-free serialization `JSON.stringify` produces, the parser its
inverse as `JSON.parse` computes it on such input). -/

inductive Json where
  | null
  | bool (b : Bool)
  | num (n : Int)
  | str (s : String)
  | arr (elems : List Json)
  | obj (fields : List (String × Json))

/-- The two brace characters (written by code point). -/
def lbrace : Char := Char.ofNat 123

def rbrace : Char := Char.ofNat 125

/-- Decimal digit character. -/
def digitChar (d : Nat) : Char := Char.ofNat (48 + d)

/-- Digit test on the scalar value (meaning of `c` in `0123456789`). -/
def isDigitChar (c : Char) : Bool :=
  48 ≤ c.toNat && c.toNat ≤ 57

/-- Accumulating decimal printer; `natChars` supplies fuel `n`, which is
enough because the value shrinks by a factor of ten each step. -/
def natCharsCore : Nat → Nat → List Char → List Char
  | 0, _, acc => acc
  | fuel + 1, n, acc =>
      if n = 0 then acc
      else natCharsCore fuel (n / 10) (digitChar (n % 10) :: acc)

/-- Decimal digits of a natural number (javascript integer formatting). -/
def natChars (n : Nat) : List Char :=
  if n = 0 then ['0'] else natCharsCore n n []

/-- Javascript integer formatting including the sign. -/
def intChars (i : Int) : List Char :=
  if i < 0 then '-' :: natChars i.natAbs else natChars i.natAbs

/-- The escape `JSON.stringify` applies to one string character. -/
def escChar (c : Char) : List Char :=
  if c = '\"' then ['\\', '\"']
  else if c = '\\' then ['\\', '\\']
  else if c = '\n' then ['\\', 'n']
  else if c = '\r' then ['\\', 'r']
  else if c = '\t' then ['\\', 't']
  else if c = '\x08' then ['\\', 'b']
  else if c = '\x0c' then ['\\', 'f']
  else if c.toNat < 32 then
    ['\\', 'u', '0', '0', hexDigitChar (c.toNat / 16), hexDigitChar (c.toNat % 16)]
  else [c]

/-- `JSON.stringify` string-content escaping. -/
def escChars : List Char → List Char
  | [] => []
  | c :: t => escChar c ++ escChars t

mutual

/-- Characters of `JSON.stringify(v)` (no whitespace, keys and elements
in order). -/
def printJson : Json → List Char
  | Json.null => ['n', 'u', 'l', 'l']
  | Json.bool true => ['t', 'r', 'u', 'e']
  | Json.bool false => ['f', 'a', 'l', 's', 'e']
  | Json.num i => intChars i
  | Json.str s => '\"' :: escChars s.data ++ ['\"']
  | Json.arr es => '[' :: printElems es ++ [']']
  | Json.obj fs => lbrace :: printFields fs ++ [rbrace]

def printElems : List Json → List Char
  | [] => []
  | [v] => printJson v
  | v :: rest => printJson v ++ ',' :: printElems rest

def printFields : List (String × Json) → List Char
  | [] => []
  | [(k, v)] => '\"' :: escChars k.data ++ '\"' :: ':' :: printJson v
  | (k, v) :: rest =>
      '\"' :: escChars k.data ++ '\"' :: ':' :: printJson v ++ ',' :: printFields rest

end

/-- `JSON.stringify` of a value. -/
def jsonStringify (v : Json) : String := ⟨printJson v⟩

mutual

/-- Fuel measure for the parser: enough fuel to parse the printed form. -/
def jsize : Json → Nat
  | Json.null => 1
  | Json.bool _ => 1
  | Json.num _ => 1
  | Json.str _ => 1
  | Json.arr es => 1 + jsizeL es
  | Json.obj fs => 1 + jsizeF fs

def jsizeL : List Json → Nat
  | [] => 0
  | v :: t => 1 + jsize v + jsizeL t

def jsizeF : List (String × Json) → Nat
  | [] => 0
  | (_, v) :: t => 1 + jsize v + jsizeF t

end

/-- Value of a lowercase hex digit character (only used on `0-9a-f`). -/
def hexVal (c : Char) : Nat :=
  if 97 ≤ c.toNat then c.toNat - 87 else c.toNat - 48

/-- Longest digit run at the front. -/
def spanDigits : List Char → List Char × List Char
  | [] => ([], [])
  | c :: t =>
      if isDigitChar c then
        let (ds, r) := spanDigits t
        (c :: ds, r)
      else ([], c :: t)

/-- Value of a digit run, most significant first. -/
def digitsValFrom (a : Nat) (ds : List Char) : Nat :=
  ds.foldl (fun x c => 10 * x + (c.toNat - 48)) a

def digitsVal (ds : List Char) : Nat := digitsValFrom 0 ds

/-- Body of a JSON string after the opening quote: unescapes until the
closing quote, returning the content and the remaining input. -/
def parseStringBody : List Char → Option (List Char × List Char)
  | [] => none
  | c :: r =>
      if c = '\"' then some ([], r)
      else if c = '\\' then
        match r with
        | [] => none
        | e :: r2 =>
            if e = '\"' then
              (parseStringBody r2).map (fun p => ('\"' :: p.1, p.2))
            else if e = '\\' then
              (parseStringBody r2).map (fun p => ('\\' :: p.1, p.2))
            else if e = 'n' then
              (parseStringBody r2).map (fun p => ('\n' :: p.1, p.2))
            else if e = 'r' then
              (parseStringBody r2).map (fun p => ('\r' :: p.1, p.2))
            else if e = 't' then
              (parseStringBody r2).map (fun p => ('\t' :: p.1, p.2))
            else if e = 'b' then
              (parseStringBody r2).map (fun p => ('\x08' :: p.1, p.2))
            else if e = 'f' then
              (parseStringBody r2).map (fun p => ('\x0c' :: p.1, p.2))
            else if e = 'u' then
              match r2 with
              | h1 :: h2 :: h3 :: h4 :: r3 =>
                  (parseStringBody r3).map (fun p =>
                    (Char.ofNat (((hexVal h1 * 16 + hexVal h2) * 16 + hexVal h3)
                        * 16 + hexVal h4) :: p.1, p.2))
              | _ => none
            else none
      else (parseStringBody r).map (fun p => (c :: p.1, p.2))

/-- Rest of the keyword `null` after its `n`. -/
def expectNull : List Char → Option (List Char)
  | 'u' :: 'l' :: 'l' :: r => some r
  | _ => none

/-- Rest of the keyword `true` after its `t`. -/
def expectTrue : List Char → Option (List Char)
  | 'r' :: 'u' :: 'e' :: r => some r
  | _ => none

/-- Rest of the keyword `false` after its `f`. -/
def expectFalse : List Char → Option (List Char)
  | 'a' :: 'l' :: 's' :: 'e' :: r => some r
  | _ => none

/-- Whether the input starts with the given character. -/
def headIs (c : Char) : List Char → Bool
  | [] => false
  | x :: _ => x = c

mutual

/-- `JSON.parse`, fuel-driven: parses one value and returns the rest of
the input. -/
def parseJson : Nat → List Char → Option (Json × List Char)
  | 0, _ => none
  | _ + 1, [] => none
  | fuel + 1, c :: r =>
      if c = 'n' then (expectNull r).map (fun r2 => (Json.null, r2))
      else if c = 't' then (expectTrue r).map (fun r2 => (Json.bool true, r2))
      else if c = 'f' then (expectFalse r).map (fun r2 => (Json.bool false, r2))
      else if c = '\"' then
        (parseStringBody r).map (fun p => (Json.str ⟨p.1⟩, p.2))
      else if c = '-' then
        if (spanDigits r).1.isEmpty then none
        else some (Json.num (-(digitsVal (spanDigits r).1 : Int)), (spanDigits r).2)
      else if isDigitChar c then
        some (Json.num (digitsVal (spanDigits (c :: r)).1 : Int),
          (spanDigits (c :: r)).2)
      else if c = '[' then
        if headIs ']' r then some (Json.arr [], r.tail)
        else (parseElems fuel r).map (fun p => (Json.arr p.1, p.2))
      else if c = lbrace then
        if headIs rbrace r then some (Json.obj [], r.tail)
        else (parseFields fuel r).map (fun p => (Json.obj p.1, p.2))
      else none

/-- Comma-separated values up to the closing `]`. -/
def parseElems : Nat → List Char → Option (List Json × List Char)
  | 0, _ => none
  | fuel + 1, input =>
      (parseJson fuel input).bind (fun p =>
        if headIs ',' p.2 then
          (parseElems fuel p.2.tail).map (fun q => (p.1 :: q.1, q.2))
        else if headIs ']' p.2 then some ([p.1], p.2.tail)
        else none)

/-- Comma-separated `"key":value` pairs up to the closing brace. -/
def parseFields : Nat → List Char → Option (List (String × Json) × List Char)
  | 0, _ => none
  | fuel + 1, input =>
      if headIs '\"' input then
        (parseStringBody input.tail).bind (fun kp =>
          if headIs ':' kp.2 then
            (parseJson fuel kp.2.tail).bind (fun vp =>
              if headIs ',' vp.2 then
                (parseFields fuel vp.2.tail).map
                  (fun q => ((⟨kp.1⟩, vp.1) :: q.1, q.2))
              else if headIs rbrace vp.2 then some ([(⟨kp.1⟩, vp.1)], vp.2.tail)
              else none)
          else none)
      else none

end

/-- `JSON.parse` on a string: the whole input must be consumed. -/
def jsonParseStr (s : String) : Option Json :=
  match parseJson s.data.length s.data with
  | some (v, []) => some v
  | _ => none

/-- Whether the input cannot extend a digit run (the greedy number parser
stops exactly here). -/
def stopsNum : List Char → Bool
  | [] => true
  | c :: _ => !(isDigitChar c)

/-! ## Canonical request construction (`createAdaptedRequest`, lines 548-659) -/

/-- A parsed request body as Express leaves it on `req.body`: absent
(`undefined`), a string, a raw `Buffer`, a parsed JSON value (the JSON
body parser), or a parsed form object (the urlencoded parser). -/
inductive JsBody where
  | undef
  | str (s : String)
  | buf (bytes : List Nat)
  | jsonVal (v : Json)
  | form (kvs : List (String × String))

/-- Javascript truthiness of `req.body` (`if (expressReq.body)`). -/
def JsBody.truthy : JsBody → Bool
  | JsBody.undef => false
  | JsBody.str s => !s.isEmpty
  | JsBody.buf _ => true
  | JsBody.form _ => true
  | JsBody.jsonVal Json.null => false
  | JsBody.jsonVal (Json.bool b) => b
  | JsBody.jsonVal (Json.num n) => n != 0
  | JsBody.jsonVal (Json.str s) => !s.isEmpty
  | JsBody.jsonVal (Json.arr _) => true
  | JsBody.jsonVal (Json.obj _) => true

/-- Javascript `typeof req.body === "object"` (true for plain objects,
arrays, Buffers and `null`). -/
def JsBody.isObjectType : JsBody → Bool
  | JsBody.buf _ => true
  | JsBody.form _ => true
  | JsBody.jsonVal Json.null => true
  | JsBody.jsonVal (Json.arr _) => true
  | JsBody.jsonVal (Json.obj _) => true
  | _ => false

/-- `Buffer.isBuffer(req.body)`. -/
def JsBody.isBuffer : JsBody → Bool
  | JsBody.buf _ => true
  | _ => false

mutual

/-- Javascript `String(x)` on a JSON-shaped value. -/
def jsToString : Json → String
  | Json.null => "null"
  | Json.bool true => "true"
  | Json.bool false => "false"
  | Json.num i => ⟨intChars i⟩
  | Json.str s => s
  | Json.arr es => jsToStringList es
  | Json.obj _ => "[object Object]"

def jsToStringList : List Json → String
  | [] => ""
  | [v] => jsToString v
  | v :: rest => jsToString v ++ "," ++ jsToStringList rest

end

/-- UTF-8 bytes of a scalar value. -/
def utf8Bytes (c : Char) : List Nat :=
  let n := c.toNat
  if n < 128 then [n]
  else if n < 2048 then [192 + n / 64, 128 + n % 64]
  else if n < 65536 then [224 + n / 4096, 128 + n / 64 % 64, 128 + n % 64]
  else [240 + n / 262144, 128 + n / 4096 % 64, 128 + n / 64 % 64, 128 + n % 64]

/-- Uppercase hex digit (percent-encoding). -/
def hexDigitUpper (n : Nat) : Char :=
  if n < 10 then Char.ofNat (48 + n) else Char.ofNat (55 + n)

/-- `application/x-www-form-urlencoded` encoding of one character, as
`URLSearchParams` performs it. -/
def urlEncodeChar (c : Char) : List Char :=
  if isDigitChar c || (65 ≤ c.toNat && c.toNat ≤ 90) ||
      (97 ≤ c.toNat && c.toNat ≤ 122) || c = '*' || c = '-' || c = '.' ||
      c = '_' then [c]
  else if c = ' ' then ['+']
  else (utf8Bytes c).foldr
    (fun b acc => '%' :: hexDigitUpper (b / 16) :: hexDigitUpper (b % 16) :: acc) []

def urlEncode (s : String) : String :=
  ⟨s.data.foldr (fun c acc => urlEncodeChar c ++ acc) []⟩

/-- `URLSearchParams.toString()` over appended key/value pairs. -/
def formEncodePairs : List (String × String) → String
  | [] => ""
  | [(k, v)] => urlEncode k ++ "=" ++ urlEncode v
  | (k, v) :: rest => urlEncode k ++ "=" ++ urlEncode v ++ "&" ++
      formEncodePairs rest

/-- The entries `for (const key in expressReq.body)` enumerates, with
`String(value)` conversion (array and Buffer indices enumerate as decimal
strings). -/
def JsBody.formEntries : JsBody → List (String × String)
  | JsBody.form kvs => kvs
  | JsBody.jsonVal (Json.obj fs) => fs.map (fun p => (p.1, jsToString p.2))
  | JsBody.jsonVal (Json.arr es) =>
      es.enum.map (fun p => (⟨natChars p.1⟩, jsToString p.2))
  | JsBody.buf bytes => bytes.enum.map (fun p => (⟨natChars p.1⟩, ⟨natChars p.2⟩))
  | _ => []

/-- The JSON value `JSON.stringify(expressReq.body)` serializes: parsed
JSON bodies are themselves, form objects are string-valued objects,
Buffers serialize as their javascript object form. (The `undef` row is
unreachable: the serializing branches all require a truthy body.) -/
def JsBody.toJson : JsBody → Json
  | JsBody.jsonVal v => v
  | JsBody.form kvs => Json.obj (kvs.map (fun p => (p.1, Json.str p.2)))
  | JsBody.buf bytes => Json.obj [("type", Json.str "Buffer"),
      ("data", Json.arr (bytes.map (fun b => Json.num (b : Int))))]
  | JsBody.str s => Json.str s
  | JsBody.undef => Json.null

/-- A body attached to the canonical `Request`: a string, a byte buffer,
or a temp-file read stream. -/
inductive CanonBody where
  | str (s : String)
  | buf (bytes : List Nat)
  | stream (path : String)
deriving DecidableEq

/-- The fields of the Express request that `createAdaptedRequest`
consults. `tempFileExists` is `fs.existsSync(req.tempFilePath)`. -/
structure ExpressReq where
  method : String
  path : String
  originalUrl : String
  host : Option String
  xForwardedProto : Option String
  encrypted : Bool
  contentType : Option String
  body : JsBody
  tempFilePath : Option String
  tempFileExists : Bool
  rawBody : Option (List Nat)

/-- The canonical `Request` as constructed (method, reconstructed URL,
optional body, optional duplex flag). -/
structure AdaptedRequest where
  method : String
  url : String
  body : Option CanonBody
  duplex : Option String

/-- The methods for which `createAdaptedRequest` considers a body at all. -/
def bodyMethods : List String :=
  ["POST", "PUT", "PATCH", "PROPFIND", "PROPPATCH", "MKCOL", "COPY", "MOVE",
    "DELETE"]

/-- The body selection of `createAdaptedRequest` (lines 560-644),
step for step: the multipart branch (spooled file stream, else legacy
`rawBody`), the MKCOL override (empty string whenever `req.body` is
truthy), and the content-type-directed serialization for the rest. The
`/dav` branch that assigns a default content type to the *local*
`contentType` variable for MKCOL affects only logging and is therefore
not observable here. -/
def adaptedBody (r : ExpressReq) : Option CanonBody :=
  if bodyMethods.contains r.method then
    let ct := r.contentType.getD ""
    let body0 : Option CanonBody :=
      if strIncludes ct "multipart/form-data" then
        if r.tempFilePath.isSome && r.tempFileExists then
          r.tempFilePath.map CanonBody.stream
        else
          match r.rawBody with
          | some bytes => some (CanonBody.buf bytes)
          | none => none
      else none
    if r.method = "MKCOL" then
      if r.body.truthy then some (CanonBody.str "") else body0
    else
      match body0 with
      | some b => some b
      | none =>
          if (strIncludes ct "application/json" || strIncludes ct "json")
              && r.body.truthy && r.body.isObjectType then
            some (CanonBody.str (jsonStringify r.body.toJson))
          else if (strIncludes ct "application/xml" ||
              strIncludes ct "text/xml" ||
              strIncludes ct "application/octet-stream") && r.body.isBuffer then
            match r.body with
            | JsBody.buf bytes => some (CanonBody.buf bytes)
            | _ => none
          else if strIncludes ct "application/x-www-form-urlencoded"
              && r.body.truthy && r.body.isObjectType then
            some (CanonBody.str (formEncodePairs r.body.formEntries))
          else if r.body.truthy then
            match r.body with
            | JsBody.buf bytes => some (CanonBody.buf bytes)
            | JsBody.str s => some (CanonBody.str s)
            | b => some (CanonBody.str (jsonStringify b.toJson))
          else none
  else none

/-- `createAdaptedRequest`: method and headers pass through, the URL is
rebuilt from the forwarded protocol (else connection security), the body
follows `adaptedBody`, and `duplex: "half"` is set exactly when a body is
attached. -/
def createAdaptedRequest (r : ExpressReq) : AdaptedRequest :=
  let protocol := r.xForwardedProto.getD (if r.encrypted then "https" else "http")
  let url := protocol ++ "://" ++ r.host.getD "localhost" ++ r.originalUrl
  let body := adaptedBody r
  { method := r.method, url := url, body := body,
    duplex := if body.isSome then some "half" else none }

/-! ## Response translation (`convertWorkerResponseToExpress`, lines 665-696) -/

/-- The canonical response returned by the native application. Bodies are
byte sequences, modelled as strings. -/
structure WorkerResponse where
  status : Nat
  headers : List (String × String)
  body : Option String

/-- What the Express side writes out: `res.json` re-encodes the decoded
JSON value through `JSON.stringify`; XML/text is sent as read; anything
else as a binary buffer; a body-less response just ends; `thrown` models
`await workerResponse.json()` rejecting on unparseable JSON. -/
inductive ExpressSent where
  | json (bytes : String)
  | text (contentType : String) (bytes : String)
  | binary (bytes : String)
  | thrown (msg : String)
  | empty
deriving DecidableEq

structure ExpressOut where
  status : Nat
  headers : List (String × String)
  sent : ExpressSent

/-- `convertWorkerResponseToExpress`: status and every header copied
verbatim; the body branches on the response content type. -/
def convertWorkerResponseToExpress (w : WorkerResponse) : ExpressOut :=
  let sent :=
    match w.body with
    | none => ExpressSent.empty
    | some b =>
        let ct := (getHeader w.headers "content-type").getD ""
        if strIncludes ct "application/json" then
          match jsonParseStr b with
          | some v => ExpressSent.json (jsonStringify v)
          | none => ExpressSent.thrown "invalid json"
        else if strIncludes ct "application/xml" ||
            strIncludes ct "text/xml" then
          ExpressSent.text ct b
        else if strIncludes ct "text/" then ExpressSent.text ct b
        else ExpressSent.binary b
  { status := w.status, headers := w.headers, sent := sent }

/-! ## Theorems -/

/-! ## Lemmas about `batch` -/

theorem execSql_notCtl {δ : Type} (M : EngineModel δ) (sql : String)
    (ps : List String) (st : DbState δ) (h : isTxnControl sql = false) :
    execSql M sql ps st =
      match M.apply st.cur sql ps with
      | StmtOut.ok d r =>
          (Except.ok r,
            match st.txn with
            | some _ => { st with txn := some d }
            | none => { st with committed := d })
      | StmtOut.fail e auto =>
          (Except.error e, if auto then { st with txn := none } else st) := by
  have h1 : ¬ sql = "BEGIN TRANSACTION" := by
    intro hh; rw [hh] at h; exact absurd h (by decide)
  have h2 : ¬ sql = "COMMIT" := by
    intro hh; rw [hh] at h; exact absurd h (by decide)
  have h3 : ¬ sql = "ROLLBACK" := by
    intro hh; rw [hh] at h; exact absurd h (by decide)
  unfold execSql
  rw [if_neg h1, if_neg h2, if_neg h3]

theorem DbState.cur_mk_some {δ : Type} (c d : δ) :
    DbState.cur ⟨c, some d⟩ = d := rfl

theorem runBatchStmt_open {δ : Type} (M : EngineModel δ) (s : BatchStmt)
    (c d : δ) (h : isTxnControl s.sqlText = false) :
    runBatchStmt M s ⟨c, some d⟩ =
      match M.apply d s.sqlText s.effParams with
      | StmtOut.ok d' r => (Except.ok (s.mkResult r), ⟨c, some d'⟩)
      | StmtOut.fail e auto =>
          (Except.error e, ⟨c, if auto then none else some d⟩) := by
  cases s with
  | raw sql =>
      have h' : isTxnControl sql = false := h
      simp only [runBatchStmt, BatchStmt.sqlText, BatchStmt.effParams]
      rw [execSql_notCtl M sql [] ⟨c, some d⟩ h']
      simp only [DbState.cur_mk_some]
      cases M.apply d sql [] with
      | ok d' r => rfl
      | fail e auto => cases auto <;> rfl
  | sqlParams sql ps =>
      have h' : isTxnControl sql = false := h
      simp only [runBatchStmt, BatchStmt.sqlText, BatchStmt.effParams]
      rw [execSql_notCtl M sql ps ⟨c, some d⟩ h']
      simp only [DbState.cur_mk_some]
      cases M.apply d sql ps with
      | ok d' r => rfl
      | fail e auto => cases auto <;> rfl
  | sqlOnly sql =>
      have h' : isTxnControl sql = false := h
      simp only [runBatchStmt, BatchStmt.sqlText, BatchStmt.effParams]
      rw [execSql_notCtl M sql [] ⟨c, some d⟩ h']
      simp only [DbState.cur_mk_some]
      cases M.apply d sql [] with
      | ok d' r => rfl
      | fail e auto => cases auto <;> rfl
  | preparedLike text ps =>
      have h' : isTxnControl text = false := h
      cases ps with
      | none =>
          simp only [runBatchStmt, Statement.runStmt, SQLiteAdapter.prepare,
            BatchStmt.sqlText, BatchStmt.effParams, Option.getD]
          rw [execSql_notCtl M text [] ⟨c, some d⟩ h']
          simp only [DbState.cur_mk_some]
          cases M.apply d text [] with
          | ok d' r => rfl
          | fail e auto => cases auto <;> rfl
      | some args =>
          simp only [runBatchStmt, Statement.runStmt, SQLiteAdapter.prepare,
            Statement.bind, BatchStmt.sqlText, BatchStmt.effParams, Option.getD]
          rw [execSql_notCtl M text args ⟨c, some d⟩ h']
          simp only [DbState.cur_mk_some]
          cases M.apply d text args with
          | ok d' r => rfl
          | fail e auto => cases auto <;> rfl

theorem runBatchStmts_ref {δ : Type} (M : EngineModel δ) :
    ∀ (stmts : List BatchStmt) (c d : δ),
    (∀ s ∈ stmts, isTxnControl s.sqlText = false) →
    (∀ rs dFin, batchRef M stmts d = Except.ok (rs, dFin) →
        runBatchStmts M stmts ⟨c, some d⟩ = (Except.ok rs, ⟨c, some dFin⟩)) ∧
    (∀ e, batchRef M stmts d = Except.error e →
        ∃ t, runBatchStmts M stmts ⟨c, some d⟩ = (Except.error e, ⟨c, t⟩)) := by
  intro stmts
  induction stmts with
  | nil =>
      intro c d _
      refine ⟨fun rs dFin hok => ?_, fun e herr => ?_⟩
      · simp only [batchRef, Except.ok.injEq, Prod.mk.injEq] at hok
        obtain ⟨h1, h2⟩ := hok
        subst h1
        subst h2
        rfl
      · simp [batchRef] at herr
  | cons s rest ih =>
      intro c d hctl
      have hs : isTxnControl s.sqlText = false := hctl s (List.mem_cons_self s rest)
      have hrest : ∀ x ∈ rest, isTxnControl x.sqlText = false :=
        fun x hx => hctl x (List.mem_cons_of_mem s hx)
      refine ⟨fun rs dFin hok => ?_, fun e herr => ?_⟩
      · simp only [batchRef] at hok
        cases happ : M.apply d s.sqlText s.effParams with
        | ok d' r =>
            simp only [happ] at hok
            cases hrec : batchRef M rest d' with
            | ok p =>
                obtain ⟨rs', dFin'⟩ := p
                simp only [hrec, Except.ok.injEq, Prod.mk.injEq] at hok
                obtain ⟨hok1, hok2⟩ := hok
                simp only [runBatchStmts, runBatchStmt_open M s c d hs, happ]
                rw [(ih c d' hrest).1 rs' dFin' hrec]
                simp [← hok1, ← hok2]
            | error e => simp [hrec] at hok
        | fail e auto => simp [happ] at hok
      · simp only [batchRef] at herr
        cases happ : M.apply d s.sqlText s.effParams with
        | ok d' r =>
            simp only [happ] at herr
            cases hrec : batchRef M rest d' with
            | ok p => obtain ⟨rs', dFin'⟩ := p; simp [hrec] at herr
            | error e' =>
                simp only [hrec, Except.error.injEq] at herr
                obtain ⟨t, ht⟩ := (ih c d' hrest).2 e' hrec
                refine ⟨t, ?_⟩
                simp only [runBatchStmts, runBatchStmt_open M s c d hs, happ, ht, herr]
        | fail e' auto =>
            simp only [happ, Except.error.injEq] at herr
            refine ⟨if auto then none else some d, ?_⟩
            simp only [runBatchStmts, runBatchStmt_open M s c d hs, happ, herr]

theorem batchRef_ok_length {δ : Type} (M : EngineModel δ) :
    ∀ (stmts : List BatchStmt) (d : δ) (rs : List BatchResult) (dFin : δ),
    batchRef M stmts d = Except.ok (rs, dFin) → rs.length = stmts.length := by
  intro stmts
  induction stmts with
  | nil =>
      intro d rs dFin h
      simp only [batchRef, Except.ok.injEq, Prod.mk.injEq] at h
      simp [← h.1]
  | cons s rest ih =>
      intro d rs dFin h
      simp only [batchRef] at h
      cases happ : M.apply d s.sqlText s.effParams with
      | ok d' r =>
          simp only [happ] at h
          cases hrec : batchRef M rest d' with
          | ok p =>
              obtain ⟨rs', dFin'⟩ := p
              simp only [hrec, Except.ok.injEq, Prod.mk.injEq] at h
              have := ih d' rs' dFin' hrec
              simp [← h.1, this]
          | error e => simp [hrec] at h
      | fail e auto => simp [happ] at h

/-- C1 (amended). For every batch whose entries contain no
transaction-control statement, started outside an open transaction:
if some statement fails, `SQLiteAdapter.batch` propagates that first
failure (even when the automatic `ROLLBACK` itself fails, as after an
engine auto-rollback), returns no results, and leaves the committed
database contents exactly as they were before the call (atomicity, with
no transaction left open); if every statement succeeds, the committed
contents are the sequential result and the result sequence has one entry
per statement in input order (`batchRef` executes the entries in input
order and stops at the first failure). -/
theorem C1_batch_atomicity {δ : Type} (M : EngineModel δ) (stmts : List BatchStmt)
    (st : DbState δ) (hTxn : st.txn = none)
    (hNoCtl : ∀ s ∈ stmts, isTxnControl s.sqlText = false) :
    (∀ e, batchRef M stmts st.committed = Except.error e →
        SQLiteAdapter.batch M stmts st =
          (Except.error e, { committed := st.committed, txn := none })) ∧
    (∀ rs dFin, batchRef M stmts st.committed = Except.ok (rs, dFin) →
        SQLiteAdapter.batch M stmts st =
          (Except.ok rs, { committed := dFin, txn := none }) ∧
        rs.length = stmts.length) := by
  obtain ⟨c, t⟩ := st
  simp only at hTxn
  subst hTxn
  have hbegin : execSql M "BEGIN TRANSACTION" [] ⟨c, none⟩ =
      (Except.ok 0, ⟨c, some c⟩) := rfl
  refine ⟨fun e herr => ?_, fun rs dFin hok => ?_⟩
  · obtain ⟨t', ht'⟩ := (runBatchStmts_ref M stmts c c hNoCtl).2 e herr
    simp only [SQLiteAdapter.batch, hbegin, ht']
    cases t' with
    | none => rfl
    | some d => rfl
  · have hloop := (runBatchStmts_ref M stmts c c hNoCtl).1 rs dFin hok
    refine ⟨?_, batchRef_ok_length M stmts c rs dFin hok⟩
    simp only [SQLiteAdapter.batch, hbegin, hloop]
    rfl

/-- Witness for `C1_batch_atomicity` at a concrete failing batch: the
hypotheses hold and the adapter rolls both statements back, propagating
the first failure. -/
theorem C1_batch_atomicity_witness :
    (⟨[], none⟩ : DbState (List String)).txn = none ∧
    (∀ s ∈ [BatchStmt.raw "A", BatchStmt.sqlParams "BAD" []],
        isTxnControl s.sqlText = false) ∧
    SQLiteAdapter.batch demoModel [BatchStmt.raw "A", BatchStmt.sqlParams "BAD" []]
        ⟨[], none⟩ =
      (Except.error "boom", { committed := [], txn := none }) :=
  ⟨rfl, by decide,
    (C1_batch_atomicity demoModel [BatchStmt.raw "A", BatchStmt.sqlParams "BAD" []]
      ⟨[], none⟩ rfl (by decide)).1 "boom" rfl⟩

/-- Counterexample to C1 as stated: a batch containing the raw SQL string
`"COMMIT"` escapes the adapter's transaction wrapper. In
`batch([raw "A", raw "COMMIT", raw "BAD"])` the third statement fails,
yet after the call returns the change made by the first statement is
committed and visible — the claimed atomicity for *every* batch with a
failing statement is violated. -/
theorem C1_counterexample :
    (SQLiteAdapter.batch demoModel
        [BatchStmt.raw "A", BatchStmt.raw "COMMIT", BatchStmt.raw "BAD"]
        ⟨[], none⟩).1 = Except.error "boom" ∧
    (SQLiteAdapter.batch demoModel
        [BatchStmt.raw "A", BatchStmt.raw "COMMIT", BatchStmt.raw "BAD"]
        ⟨[], none⟩).2.committed ≠ ([] : List String) :=
  ⟨rfl, by decide⟩

/-- C10. The emulated prepared statement: `prepare(sql)` is a pure
construction that succeeds for any string (even invalid SQL) and performs
no engine interaction (its type involves no database state); `bind`
replaces the parameter sequence; `run()`/`all()`/`first()` raise exactly
when the underlying engine call (`db.run` / `db.all` / `db.get`) fails,
and otherwise `run` resolves with the success indicator, `all` with the
rows wrapped in a `results` field, and `first` with the first row or an
absent value. -/
theorem C10_prepare_lazy_contract {δ : Type} (M : EngineModel δ) (st : DbState δ)
    (sql : String) (args : List String) :
    (SQLiteAdapter.prepare sql).sql = sql ∧
    (SQLiteAdapter.prepare sql).params = [] ∧
    ((SQLiteAdapter.prepare sql).bind args).sql = sql ∧
    ((SQLiteAdapter.prepare sql).bind args).params = args ∧
    (∀ e, (Statement.runStmt ((SQLiteAdapter.prepare sql).bind args) M st).1 =
            Except.error e
        ↔ (execSql M sql args st).1 = Except.error e) ∧
    (∀ r, (execSql M sql args st).1 = Except.ok r →
        (Statement.runStmt ((SQLiteAdapter.prepare sql).bind args) M st).1 =
          Except.ok { success := true }) ∧
    (∀ e, Statement.allStmt ((SQLiteAdapter.prepare sql).bind args) M st =
            Except.error e
        ↔ querySql M sql args st = Except.error e) ∧
    (∀ rows, querySql M sql args st = Except.ok rows →
        Statement.allStmt ((SQLiteAdapter.prepare sql).bind args) M st =
          Except.ok { results := rows }) ∧
    (∀ e, Statement.firstStmt ((SQLiteAdapter.prepare sql).bind args) M st =
            Except.error e
        ↔ querySql M sql args st = Except.error e) ∧
    (∀ rows, querySql M sql args st = Except.ok rows →
        Statement.firstStmt ((SQLiteAdapter.prepare sql).bind args) M st =
          Except.ok rows.head?) := by
  refine ⟨rfl, rfl, rfl, rfl, ?_, ?_, ?_, ?_, ?_, ?_⟩
  · intro e
    simp only [Statement.runStmt, SQLiteAdapter.prepare, Statement.bind]
    cases hx : execSql M sql args st with
    | mk fst snd => cases fst <;> simp
  · intro r h
    simp only [Statement.runStmt, SQLiteAdapter.prepare, Statement.bind]
    cases hx : execSql M sql args st with
    | mk fst snd =>
        rw [hx] at h
        cases fst with
        | ok v => simp
        | error e => exact absurd h (by simp)
  · intro e
    simp only [Statement.allStmt, SQLiteAdapter.prepare, Statement.bind]
    cases hx : querySql M sql args st <;> simp
  · intro rows h
    simp only [Statement.allStmt, SQLiteAdapter.prepare, Statement.bind, h]
  · intro e
    simp only [Statement.firstStmt, SQLiteAdapter.prepare, Statement.bind]
    cases hx : querySql M sql args st <;> simp
  · intro rows h
    simp only [Statement.firstStmt, SQLiteAdapter.prepare, Statement.bind, h]

/-- Witness for `C10_prepare_lazy_contract`: concrete runs discharging the
engine-success and engine-failure hypotheses — a valid statement runs and
queries successfully with the documented result shapes, and a statement
whose SQL the engine rejects raises exactly the engine error (while
`prepare` itself succeeded on it). -/
theorem C10_prepare_lazy_contract_witness :
    (Statement.runStmt ((SQLiteAdapter.prepare "A").bind ["p"]) demoModel
        ⟨[], none⟩).1 = Except.ok { success := true } ∧
    Statement.allStmt ((SQLiteAdapter.prepare "Q").bind []) demoModel ⟨[], none⟩ =
      Except.ok { results := [[("col", "v")]] } ∧
    Statement.firstStmt ((SQLiteAdapter.prepare "Q").bind []) demoModel ⟨[], none⟩ =
      Except.ok (some [("col", "v")]) ∧
    (Statement.runStmt ((SQLiteAdapter.prepare "BAD").bind []) demoModel
        ⟨[], none⟩).1 = Except.error "boom" :=
  ⟨(C10_prepare_lazy_contract demoModel ⟨[], none⟩ "A" ["p"]).2.2.2.2.2.1 0 rfl,
   (C10_prepare_lazy_contract demoModel ⟨[], none⟩ "Q" []).2.2.2.2.2.2.2.1
     [[("col", "v")]] rfl,
   (C10_prepare_lazy_contract demoModel ⟨[], none⟩ "Q" []).2.2.2.2.2.2.2.2.2
     [[("col", "v")]] rfl,
   ((C10_prepare_lazy_contract demoModel ⟨[], none⟩ "BAD" []).2.2.2.2.1
     "boom").mpr rfl⟩

/-- C4 (amended). The lazy guard is checked at the start of every request
and the first request's initialization failure is logged without crashing
(`next()` is still called) — but the initialization is *not* retried: the
flag is set to `true` before the attempt and never reset, so every later
request skips initialization entirely, leaving the database permanently
uninitialized after a failed first attempt. -/
theorem C4_init_once_no_retry (s : ServerState) (outcome : Bool) :
    ((dbInitMiddleware outcome s).2.2 = true) ∧
    (s.isDbInitialized = false →
        dbInitMiddleware outcome s =
          ({ isDbInitialized := true, dbReady := outcome }, true, true)) ∧
    (s.isDbInitialized = true → dbInitMiddleware outcome s = (s, false, true)) := by
  refine ⟨?_, fun h => ?_, fun h => ?_⟩
  · unfold dbInitMiddleware
    cases hb : s.isDbInitialized <;> simp [hb]
  · simp [dbInitMiddleware, h]
  · simp [dbInitMiddleware, h]

/-- Witness for `C4_init_once_no_retry`: first request with a failing
initialization, then the state in which every later request skips. -/
theorem C4_init_once_no_retry_witness :
    ((⟨false, false⟩ : ServerState).isDbInitialized = false ∧
      dbInitMiddleware false ⟨false, false⟩ = (⟨true, false⟩, true, true)) ∧
    ((⟨true, false⟩ : ServerState).isDbInitialized = true ∧
      dbInitMiddleware true ⟨true, false⟩ = (⟨true, false⟩, false, true)) :=
  ⟨⟨rfl, (C4_init_once_no_retry ⟨false, false⟩ false).2.1 rfl⟩,
   ⟨rfl, (C4_init_once_no_retry ⟨true, false⟩ true).2.2 rfl⟩⟩

/-- Counterexample to C4 as stated: after a first request whose
initialization fails, a later request does *not* retry — the flag was set
before the attempt, so the second request makes no initialization attempt
and the database stays down, although initialization would now succeed. -/
theorem C4_counterexample :
    (dbInitMiddleware false ⟨false, false⟩).1 = ⟨true, false⟩ ∧
    (dbInitMiddleware true (dbInitMiddleware false ⟨false, false⟩).1).2.1 = false ∧
    (dbInitMiddleware true (dbInitMiddleware false ⟨false, false⟩).1).1.dbReady
      = false := by
  decide

/-- C6 (amended). An `OPTIONS` request under `/dav` is indeed answered
immediately with status 204 without reaching the business logic — but by
the npm cors middleware (line 285, `preflightContinue` at its default
`false`), which terminates every `OPTIONS` request before the `/dav`
middleware runs. The response carries `Access-Control-Allow-Methods`
equal to the comma-joined configured verb set (from `corsOptions`) but
**no** `Allow`, no `DAV` and no `MS-Author-Via` header: the `/dav`
`OPTIONS` branch of lines 299-304, which would have added those headers
(final conjunct), is unreachable for real preflights. -/
theorem C6_dav_preflight (cfg : WebdavConfig)
    (app : String → String → SimpleResponse) (method path : String)
    (hm : method = "OPTIONS") (hp : strStartsWith path "/dav" = true) :
    (dispatchDav cfg app method path).1.status = 204 ∧
    (dispatchDav cfg app method path).2 = false ∧
    getHeader (dispatchDav cfg app method path).1.headers
        "Access-Control-Allow-Methods" =
      some (joinComma cfg.supportedMethods) ∧
    getHeader (dispatchDav cfg app method path).1.headers "Allow" = none ∧
    getHeader (dispatchDav cfg app method path).1.headers "DAV" = none ∧
    getHeader (dispatchDav cfg app method path).1.headers "MS-Author-Via" =
      none ∧
    davMiddleware cfg method path =
      DavOutcome.halt 204
        [("Access-Control-Allow-Methods", joinComma cfg.supportedMethods),
         ("Allow", joinComma cfg.supportedMethods),
         ("DAV", cfg.davHeader),
         ("MS-Author-Via", cfg.msAuthorVia)] := by
  subst hm
  have hd : dispatchDav cfg app "OPTIONS" path =
      ({ status := 204,
         headers := [("Access-Control-Allow-Origin", cfg.corsAllowOrigin),
                     ("Access-Control-Allow-Credentials", "true"),
                     ("Access-Control-Allow-Methods", joinComma cfg.supportedMethods),
                     ("Access-Control-Max-Age", "86400"),
                     ("Content-Length", "0")] }, false) := by
    unfold dispatchDav corsMiddleware
    rfl
  have hdav : davMiddleware cfg "OPTIONS" path =
      DavOutcome.halt 204
        [("Access-Control-Allow-Methods", joinComma cfg.supportedMethods),
         ("Allow", joinComma cfg.supportedMethods),
         ("DAV", cfg.davHeader),
         ("MS-Author-Via", cfg.msAuthorVia)] := by
    unfold davMiddleware
    rw [hp]
    rfl
  rw [hd]
  exact ⟨rfl, rfl, rfl, rfl, rfl, rfl, hdav⟩

/-- Witness for `C6_dav_preflight` at a concrete configuration and
request. -/
theorem C6_dav_preflight_witness :
    ("OPTIONS" : String) = "OPTIONS" ∧
    (strStartsWith "/dav/folder" "/dav" = true) ∧
    ((dispatchDav ⟨["OPTIONS", "PROPFIND", "MKCOL"], "*", "1, 2", "DAV"⟩
        (fun _ _ => ⟨500, []⟩) "OPTIONS" "/dav/folder").1.status = 204 ∧
      (dispatchDav ⟨["OPTIONS", "PROPFIND", "MKCOL"], "*", "1, 2", "DAV"⟩
        (fun _ _ => ⟨500, []⟩) "OPTIONS" "/dav/folder").2 = false ∧
      getHeader (dispatchDav ⟨["OPTIONS", "PROPFIND", "MKCOL"], "*", "1, 2", "DAV"⟩
        (fun _ _ => ⟨500, []⟩) "OPTIONS" "/dav/folder").1.headers "Allow" =
        none) :=
  ⟨rfl, by decide,
    (C6_dav_preflight ⟨["OPTIONS", "PROPFIND", "MKCOL"], "*", "1, 2", "DAV"⟩
        (fun _ _ => ⟨500, []⟩) "OPTIONS" "/dav/folder" rfl (by decide)).1,
    (C6_dav_preflight ⟨["OPTIONS", "PROPFIND", "MKCOL"], "*", "1, 2", "DAV"⟩
        (fun _ _ => ⟨500, []⟩) "OPTIONS" "/dav/folder" rfl (by decide)).2.1,
    (C6_dav_preflight ⟨["OPTIONS", "PROPFIND", "MKCOL"], "*", "1, 2", "DAV"⟩
        (fun _ _ => ⟨500, []⟩) "OPTIONS" "/dav/folder" rfl
        (by decide)).2.2.2.1⟩

/-- Counterexample to C6 as stated: the preflight `OPTIONS /dav/folder`
is answered 204 by the cors middleware before the `/dav` middleware runs,
so the response carries none of the `Allow`, `DAV` and `MS-Author-Via`
headers the claim asserts. -/
theorem C6_counterexample :
    (dispatchDav ⟨["OPTIONS", "PROPFIND", "PROPPATCH", "MKCOL", "PUT",
        "DELETE"], "*", "1, 2", "DAV"⟩ (fun _ _ => ⟨500, []⟩)
        "OPTIONS" "/dav/folder").1.status = 204 ∧
    (dispatchDav ⟨["OPTIONS", "PROPFIND", "PROPPATCH", "MKCOL", "PUT",
        "DELETE"], "*", "1, 2", "DAV"⟩ (fun _ _ => ⟨500, []⟩)
        "OPTIONS" "/dav/folder").2 = false ∧
    getHeader (dispatchDav ⟨["OPTIONS", "PROPFIND", "PROPPATCH", "MKCOL",
        "PUT", "DELETE"], "*", "1, 2", "DAV"⟩ (fun _ _ => ⟨500, []⟩)
        "OPTIONS" "/dav/folder").1.headers "Allow" = none ∧
    getHeader (dispatchDav ⟨["OPTIONS", "PROPFIND", "PROPPATCH", "MKCOL",
        "PUT", "DELETE"], "*", "1, 2", "DAV"⟩ (fun _ _ => ⟨500, []⟩)
        "OPTIONS" "/dav/folder").1.headers "DAV" = none ∧
    getHeader (dispatchDav ⟨["OPTIONS", "PROPFIND", "PROPPATCH", "MKCOL",
        "PUT", "DELETE"], "*", "1, 2", "DAV"⟩ (fun _ _ => ⟨500, []⟩)
        "OPTIONS" "/dav/folder").1.headers "MS-Author-Via" = none := by
  decide

/-- C8 (amended). Every exception raised during dispatch is converted by
the catch block (never re-thrown): the response status is the error's own
status when that status is a *truthy* (non-zero) number, else the default
server-error status; the body is the sanitized object — fixed generic
message independent of the error's own message and stack, the generated
correlation id, `success: false`, `data: null`, and (by the shape of
`ErrorBody`) no stack trace or raw message field. -/
theorem C8_error_sanitized (eid : String) (e : JsError) :
    (∀ n, e.status = some n → n ≠ 0 → (wildcardCatch eid e).1 = n) ∧
    (e.status = none →
        (wildcardCatch eid e).1 = ApiStatus_INTERNAL_ERROR) ∧
    (e.status = some 0 →
        (wildcardCatch eid e).1 = ApiStatus_INTERNAL_ERROR) ∧
    (wildcardCatch eid e).2.message = "服务器内部错误" ∧
    (wildcardCatch eid e).2.errorId = eid ∧
    (wildcardCatch eid e).2.success = false ∧
    (wildcardCatch eid e).2.data = none ∧
    (wildcardCatch eid e).2.code = (wildcardCatch eid e).1 ∧
    (∀ e' : JsError,
        (wildcardCatch eid e).2.message = (wildcardCatch eid e').2.message) := by
  refine ⟨fun n hn hnz => ?_, fun h => ?_, fun h => ?_, rfl, rfl, rfl, rfl, rfl,
    fun e' => rfl⟩
  · simp [wildcardCatch, hn, hnz]
  · simp [wildcardCatch, h]
  · simp [wildcardCatch, h]

/-- Witness for `C8_error_sanitized`: an error carrying status 418 is
answered with 418 and the sanitized body; an error without a status gets
the default server-error status. -/
theorem C8_error_sanitized_witness :
    ((⟨some "teapot", none, some 418⟩ : JsError).status = some 418 ∧
      (418 : Int) ≠ 0 ∧
      (wildcardCatch "id1" ⟨some "teapot", none, some 418⟩).1 = 418) ∧
    ((⟨none, none, none⟩ : JsError).status = none ∧
      (wildcardCatch "id2" ⟨none, none, none⟩).1 = ApiStatus_INTERNAL_ERROR) ∧
    (wildcardCatch "id1" ⟨some "teapot", none, some 418⟩).2.message =
      "服务器内部错误" :=
  ⟨⟨rfl, by decide,
     (C8_error_sanitized "id1" ⟨some "teapot", none, some 418⟩).1 418 rfl
       (by decide)⟩,
   ⟨rfl, (C8_error_sanitized "id2" ⟨none, none, none⟩).2.1 rfl⟩,
   (C8_error_sanitized "id1" ⟨some "teapot", none, some 418⟩).2.2.2.1⟩

/-- Counterexample to C8 as stated: `0` *is* a number, yet an error with
`status: 0` is answered with the default server-error status 500, not
with its own numeric status — the code requires the status to be truthy,
not merely numeric. -/
theorem C8_counterexample :
    (⟨some "boom", some "trace", some 0⟩ : JsError).status = some 0 ∧
    (wildcardCatch "x" ⟨some "boom", some "trace", some 0⟩).1 ≠ 0 ∧
    (wildcardCatch "x" ⟨some "boom", some "trace", some 0⟩).1 = 500 := by
  refine ⟨rfl, ?_, rfl⟩
  decide

/-! ### Spool lemmas -/

theorem hexDigitChar_fin_inj :
    ∀ a b : Fin 16, hexDigitChar a.val = hexDigitChar b.val → a = b := by
  decide

theorem hexDigitChar_inj {a b : Nat} (ha : a < 16) (hb : b < 16)
    (h : hexDigitChar a = hexDigitChar b) : a = b := by
  have := hexDigitChar_fin_inj ⟨a, ha⟩ ⟨b, hb⟩ h
  exact congrArg Fin.val this

theorem hexChars_inj : ∀ (bs bs' : List Nat),
    (∀ x ∈ bs, x < 256) → (∀ x ∈ bs', x < 256) →
    hexChars bs = hexChars bs' → bs = bs' := by
  intro bs
  induction bs with
  | nil =>
      intro bs' _ _ h
      cases bs' with
      | nil => rfl
      | cons b t => simp [hexChars, hexByte] at h
  | cons b t ih =>
      intro bs' hb hb' h
      cases bs' with
      | nil => simp [hexChars, hexByte] at h
      | cons b' t' =>
          simp only [hexChars, hexByte, List.cons_append, List.nil_append,
            List.cons.injEq] at h
          obtain ⟨h1, h2, h3⟩ := h
          have hbb : b < 256 := hb b (List.mem_cons_self b t)
          have hbb' : b' < 256 := hb' b' (List.mem_cons_self b' t')
          have hd1 : b / 16 % 16 = b' / 16 % 16 :=
            hexDigitChar_inj (Nat.mod_lt _ (by omega)) (Nat.mod_lt _ (by omega)) h1
          have hd2 : b % 16 = b' % 16 :=
            hexDigitChar_inj (Nat.mod_lt _ (by omega)) (Nat.mod_lt _ (by omega)) h2
          have hdiv : b / 16 = b' / 16 := by
            have e1 : b / 16 < 16 := by omega
            have e2 : b' / 16 < 16 := by omega
            rw [Nat.mod_eq_of_lt e1, Nat.mod_eq_of_lt e2] at hd1
            exact hd1
          have hbeq : b = b' := by omega
          have hteq : t = t' :=
            ih t' (fun x hx => hb x (List.mem_cons_of_mem b hx))
              (fun x hx => hb' x (List.mem_cons_of_mem b' hx)) h3
          rw [hbeq, hteq]

theorem data_mk (l : List Char) : (String.mk l).data = l := rfl

theorem data_append (a b : String) : (a ++ b).data = a.data ++ b.data := rfl

theorem tempFilePathFor_inj (tmpdir : String) (bs bs' : List Nat)
    (h1 : ∀ x ∈ bs, x < 256) (h2 : ∀ x ∈ bs', x < 256) (hne : bs ≠ bs') :
    tempFilePathFor tmpdir bs ≠ tempFilePathFor tmpdir bs' := by
  intro h
  apply hne
  apply hexChars_inj bs bs' h1 h2
  have hdata := congrArg String.data h
  simp only [tempFilePathFor, tempFileNameFor, hexEncode, data_append,
    data_mk, List.append_assoc] at hdata
  exact List.append_cancel_left (List.append_cancel_left
    (List.append_cancel_left hdata))

/-- Setting `fileOnDisk` can never happen again once the file is gone:
no handler recreates the temp file. -/
theorem spoolStep_file_stays_off (st : SpoolState) (ev : SpoolEv)
    (h : st.fileOnDisk = false) : (spoolStep st ev).fileOnDisk = false := by
  cases ev with
  | fsFinish => exact h
  | fsError m => rfl
  | resFinish =>
      unfold spoolStep
      cases st.tempFilePath with
      | none => exact h
      | some p => rw [h]; simp
  | reqError m => exact h

theorem spoolStep_inv (st : SpoolState) (ev : SpoolEv) (h : spoolInv st) :
    spoolInv (spoolStep st ev) := by
  cases ev with
  | fsFinish => exact fun hn => h hn
  | fsError m => exact fun _ => rfl
  | resFinish =>
      unfold spoolStep spoolInv
      cases hp : st.tempFilePath with
      | none => exact fun hn => h hp
      | some p =>
          cases hf : st.fileOnDisk with
          | false => simp
          | true => simp
  | reqError m => exact fun hn => h hn

theorem spoolStep_resFinish_off (st : SpoolState) (h : spoolInv st) :
    (spoolStep st SpoolEv.resFinish).fileOnDisk = false := by
  unfold spoolStep
  cases hp : st.tempFilePath with
  | none => exact h hp
  | some p =>
      cases hf : st.fileOnDisk with
      | false => simp
      | true => simp

theorem runSpoolEvents_resFinish_off :
    ∀ (evs : List SpoolEv) (st : SpoolState), spoolInv st →
    SpoolEv.resFinish ∈ evs →
    (runSpoolEvents st evs).fileOnDisk = false := by
  intro evs
  induction evs with
  | nil => intro st _ hmem; cases hmem
  | cons e t ih =>
      intro st hinv hmem
      by_cases he : e = SpoolEv.resFinish
      · subst he
        have hoff := spoolStep_resFinish_off st hinv
        have : ∀ (t' : List SpoolEv) (s : SpoolState), s.fileOnDisk = false →
            (runSpoolEvents s t').fileOnDisk = false := by
          intro t'
          induction t' with
          | nil => intro s hs; exact hs
          | cons x xs ihx =>
              intro s hs
              exact ihx (spoolStep s x) (spoolStep_file_stays_off s x hs)
        exact this t (spoolStep st SpoolEv.resFinish) hoff
      · have hmem' : SpoolEv.resFinish ∈ t := by
          cases hmem with
          | head => exact absurd rfl he
          | tail _ hm => exact hm
        exact ih (spoolStep st e) (spoolStep_inv st e hinv) hmem'

theorem runSpoolEvents_stream_closed :
    ∀ (evs : List SpoolEv) (st : SpoolState),
    (st.streamOpen = false ∨ ∃ m, SpoolEv.reqError m ∈ evs) →
    (runSpoolEvents st evs).streamOpen = false := by
  intro evs
  induction evs with
  | nil =>
      intro st h
      cases h with
      | inl h => exact h
      | inr h => obtain ⟨m, hm⟩ := h; cases hm
  | cons e t ih =>
      intro st h
      cases h with
      | inl h =>
          apply ih
          left
          cases e with
          | fsFinish => exact h
          | fsError m => exact h
          | resFinish =>
              unfold spoolStep
              cases st.tempFilePath with
              | none => exact h
              | some p => cases st.fileOnDisk <;> simp <;> exact h
          | reqError m => rfl
      | inr h =>
        obtain ⟨m, hm⟩ := h
        cases hm with
        | head =>
            apply ih
            left
            rfl
        | tail _ hmem =>
            apply ih
            by_cases hs : (spoolStep st e).streamOpen = false
            · exact Or.inl hs
            · exact Or.inr ⟨m, hmem⟩

/-- C3 (amended). For a spooled request: whenever the response completes
(Node's `"finish"` fires), the temp file no longer exists afterwards —
on success paths and on failure paths alike (even if a stream error
already removed it, the completion handler's second unlink attempt fails
harmlessly inside its try/catch); and whenever the client aborts
mid-upload (`req "error"`), the spool stream is closed. The temp file is,
however, only removed by the response-completion handler (or the
stream-error handler), not by the abort handler itself. -/
theorem C3_cleanup_on_completion (tmpdir : String) (randBytes : List Nat)
    (evs : List SpoolEv) :
    (SpoolEv.resFinish ∈ evs →
        (runSpoolEvents (spoolSetup tmpdir randBytes) evs).fileOnDisk = false) ∧
    (∀ m, SpoolEv.reqError m ∈ evs →
        (runSpoolEvents (spoolSetup tmpdir randBytes) evs).streamOpen = false) := by
  constructor
  · intro hres
    apply runSpoolEvents_resFinish_off evs (spoolSetup tmpdir randBytes) _ hres
    intro hn
    simp [spoolSetup] at hn
  · intro m hm
    exact runSpoolEvents_stream_closed evs (spoolSetup tmpdir randBytes)
      (Or.inr ⟨m, hm⟩)

/-- Witness for `C3_cleanup_on_completion`: a normal upload (stream
finish, then response finish) ends with the temp file removed; an errored
upload (stream error, then response finish) also ends with it removed. -/
theorem C3_cleanup_on_completion_witness :
    (SpoolEv.resFinish ∈ [SpoolEv.fsFinish, SpoolEv.resFinish] ∧
      (runSpoolEvents (spoolSetup "/tmp" (List.replicate 16 0))
        [SpoolEv.fsFinish, SpoolEv.resFinish]).fileOnDisk = false) ∧
    (SpoolEv.resFinish ∈ [SpoolEv.fsError "EIO", SpoolEv.resFinish] ∧
      (runSpoolEvents (spoolSetup "/tmp" (List.replicate 16 0))
        [SpoolEv.fsError "EIO", SpoolEv.resFinish]).fileOnDisk = false) :=
  ⟨⟨by decide,
    (C3_cleanup_on_completion "/tmp" (List.replicate 16 0)
      [SpoolEv.fsFinish, SpoolEv.resFinish]).1 (by decide)⟩,
   ⟨by decide,
    (C3_cleanup_on_completion "/tmp" (List.replicate 16 0)
      [SpoolEv.fsError "EIO", SpoolEv.resFinish]).1 (by decide)⟩⟩

/-- Counterexample to C3 as stated: when the client aborts mid-upload the
`req "error"` handler only closes the stream (`fileStream.end()`) and
forwards the error; no cleanup handler is registered on the response's
`"close"`, so if the aborted response never emits `"finish"` the partial
temp file is *not* removed and the reference is *not* cleared —
contradicting "the spool stream is closed and its partial temp file
removed". -/
theorem C3_counterexample :
    (runSpoolEvents (spoolSetup "/tmp" (List.replicate 16 0))
        [SpoolEv.reqError "aborted"]).streamOpen = false ∧
    (runSpoolEvents (spoolSetup "/tmp" (List.replicate 16 0))
        [SpoolEv.reqError "aborted"]).fileOnDisk = true ∧
    (runSpoolEvents (spoolSetup "/tmp" (List.replicate 16 0))
        [SpoolEv.reqError "aborted"]).tempFilePath.isSome = true ∧
    (runSpoolEvents (spoolSetup "/tmp" (List.replicate 16 0))
        [SpoolEv.reqError "aborted"]).unlinkAttempts = 0 :=
  ⟨rfl, rfl, rfl, rfl⟩

/-- C5 (amended). For every `POST` request whose content type includes
`multipart/form-data`: the middleware spools (the body is handed raw to
the temp-file write stream; the later body parsers never see it), the
temp file is `os.tmpdir()/upload-<hex of the 16 random bytes>` — distinct
random bytes give distinct paths — and the request is annotated with the
temp-file path at stream establishment, before any completion event and
before `next()` runs; on a stream error the partial temp file is
best-effort removed and the error is propagated via `next(err)`. -/
theorem C5_multipart_spooling (r : SpoolReq) (tmpdir : String)
    (randBytes : List Nat) (ct : String) (hm : r.method = "POST")
    (hct : r.contentType = some ct)
    (hinc : strIncludes ct "multipart/form-data" = true) :
    spoolMiddleware r tmpdir randBytes =
      (IngestDecision.spool (tempFilePathFor tmpdir randBytes),
        some (spoolSetup tmpdir randBytes)) ∧
    (spoolSetup tmpdir randBytes).tempFilePath =
      some (tempFilePathFor tmpdir randBytes) ∧
    (spoolSetup tmpdir randBytes).nextCalls = [] ∧
    (spoolSetup tmpdir randBytes).streamOpen = true ∧
    tempFilePathFor tmpdir randBytes =
      tmpdir ++ "/" ++ ("upload-" ++ hexEncode randBytes) ∧
    (∀ bs', (∀ x ∈ randBytes, x < 256) → (∀ x ∈ bs', x < 256) →
        randBytes ≠ bs' →
        tempFilePathFor tmpdir randBytes ≠ tempFilePathFor tmpdir bs') ∧
    (∀ m, (spoolStep (spoolSetup tmpdir randBytes)
              (SpoolEv.fsError m)).fileOnDisk = false ∧
          (spoolStep (spoolSetup tmpdir randBytes)
              (SpoolEv.fsError m)).nextCalls = [some m]) := by
  have hsp : isSpooled r = true := by
    unfold isSpooled
    rw [hm, hct]
    simp [hinc]
  refine ⟨?_, rfl, rfl, rfl, by simp [tempFilePathFor, tempFileNameFor], ?_, ?_⟩
  · unfold spoolMiddleware
    rw [hsp]
    rfl
  · intro bs' hv hv' hne
    exact tempFilePathFor_inj tmpdir randBytes bs' hv hv' hne
  · intro m
    exact ⟨rfl, rfl⟩

/-- Witness for `C5_multipart_spooling` at a concrete request and random
bytes. -/
theorem C5_multipart_spooling_witness :
    ((⟨"POST", some "multipart/form-data; boundary=b1"⟩ : SpoolReq).method
        = "POST" ∧
      (⟨"POST", some "multipart/form-data; boundary=b1"⟩ : SpoolReq).contentType
        = some "multipart/form-data; boundary=b1" ∧
      strIncludes "multipart/form-data; boundary=b1" "multipart/form-data"
        = true) ∧
    spoolMiddleware ⟨"POST", some "multipart/form-data; boundary=b1"⟩
        "/tmp" (List.replicate 16 0) =
      (IngestDecision.spool (tempFilePathFor "/tmp" (List.replicate 16 0)),
        some (spoolSetup "/tmp" (List.replicate 16 0))) :=
  ⟨⟨rfl, rfl, by decide⟩,
    (C5_multipart_spooling ⟨"POST", some "multipart/form-data; boundary=b1"⟩
      "/tmp" (List.replicate 16 0) "multipart/form-data; boundary=b1"
      rfl rfl (by decide)).1⟩

/-- Counterexample to C5 as stated: the middleware's guard requires the
method to be `POST` and the content type to include exactly
`multipart/form-data` — a `PUT` request with a `multipart/form-data`
content type (a `multipart/*` content type) is not spooled at all and
falls through to the ordinary body parsers. -/
theorem C5_counterexample :
    strIncludes "multipart/form-data" "multipart/form-data" = true ∧
    spoolMiddleware ⟨"PUT", some "multipart/form-data"⟩ "/tmp"
        (List.replicate 16 0) =
      (IngestDecision.passThrough, none) :=
  ⟨by decide, rfl⟩

/-! ### Round-trip: decimal numbers -/

theorem natCharsCore_append : ∀ (fuel n : Nat) (acc : List Char),
    natCharsCore fuel n acc = natCharsCore fuel n [] ++ acc := by
  intro fuel
  induction fuel with
  | zero => intro n acc; rfl
  | succ f ih =>
      intro n acc
      by_cases hn : n = 0
      · simp [natCharsCore, hn]
      · simp only [natCharsCore, hn, if_false]
        rw [ih (n / 10) (digitChar (n % 10) :: acc),
          ih (n / 10) [digitChar (n % 10)]]
        simp

theorem digitChar_fin_facts :
    ∀ d : Fin 10, isDigitChar (digitChar d.val) = true ∧
      (digitChar d.val).toNat - 48 = d.val := by
  decide

theorem digitChar_isDigit {d : Nat} (h : d < 10) :
    isDigitChar (digitChar d) = true :=
  (digitChar_fin_facts ⟨d, h⟩).1

theorem digitChar_toNat {d : Nat} (h : d < 10) :
    (digitChar d).toNat - 48 = d :=
  (digitChar_fin_facts ⟨d, h⟩).2

theorem digitsValFrom_append (a : Nat) (xs ys : List Char) :
    digitsValFrom a (xs ++ ys) = digitsValFrom (digitsValFrom a xs) ys := by
  unfold digitsValFrom
  exact List.foldl_append ..

theorem natCharsCore_zero : ∀ fuel, natCharsCore fuel 0 [] = [] := by
  intro fuel
  cases fuel <;> rfl

theorem natCharsCore_spec : ∀ (n fuel : Nat), n ≤ fuel →
    (∀ c ∈ natCharsCore fuel n [], isDigitChar c = true) ∧
    (∀ a, digitsValFrom a (natCharsCore fuel n []) =
        a * 10 ^ (natCharsCore fuel n []).length + n) := by
  intro n
  induction n using Nat.strong_induction_on with
  | _ n ih =>
      intro fuel hle
      by_cases hn : n = 0
      · subst hn
        rw [natCharsCore_zero]
        exact ⟨fun c hc => absurd hc (List.not_mem_nil c),
          fun a => by simp [digitsValFrom]⟩
      · have hfuel : ∃ f, fuel = f + 1 := by
          cases fuel with
          | zero => omega
          | succ f => exact ⟨f, rfl⟩
        obtain ⟨f, rfl⟩ := hfuel
        have hstep : natCharsCore (f + 1) n [] =
            natCharsCore f (n / 10) [] ++ [digitChar (n % 10)] := by
          simp only [natCharsCore, hn, if_false]
          exact natCharsCore_append f (n / 10) [digitChar (n % 10)]
        have hdiv : n / 10 < n := Nat.div_lt_self (by omega) (by omega)
        have hdivle : n / 10 ≤ f := by omega
        obtain ⟨ihd, ihv⟩ := ih (n / 10) hdiv f hdivle
        constructor
        · intro c hc
          rw [hstep] at hc
          rcases List.mem_append.mp hc with hc | hc
          · exact ihd c hc
          · rcases List.mem_singleton.mp hc with rfl
            exact digitChar_isDigit (Nat.mod_lt _ (by omega))
        · intro a
          rw [hstep, digitsValFrom_append, ihv a]
          have hsingle : digitsValFrom
              (a * 10 ^ (natCharsCore f (n / 10) []).length + n / 10)
              [digitChar (n % 10)] =
              10 * (a * 10 ^ (natCharsCore f (n / 10) []).length + n / 10) +
                ((digitChar (n % 10)).toNat - 48) := by
            simp [digitsValFrom]
          rw [hsingle, digitChar_toNat (Nat.mod_lt _ (by omega))]
          have hlen : (natCharsCore f (n / 10) [] ++
              [digitChar (n % 10)]).length =
              (natCharsCore f (n / 10) []).length + 1 := by simp
          rw [hlen]
          have hmod := Nat.div_add_mod n 10
          ring_nf
          omega

theorem natChars_spec (n : Nat) :
    (∀ c ∈ natChars n, isDigitChar c = true) ∧
    digitsVal (natChars n) = n ∧ natChars n ≠ [] := by
  by_cases hn : n = 0
  · subst hn
    refine ⟨fun c hc => ?_, by decide, by decide⟩
    rcases List.mem_singleton.mp hc with rfl
    decide
  · have hspec := natCharsCore_spec n n (Nat.le_refl n)
    have hne : natChars n ≠ [] := by
      unfold natChars
      simp only [hn, if_false]
      obtain ⟨f, hf⟩ : ∃ f, n = f + 1 := ⟨n - 1, by omega⟩
      rw [hf]
      have hstep : natCharsCore (f + 1) (f + 1) [] =
          natCharsCore f ((f + 1) / 10) [] ++ [digitChar ((f + 1) % 10)] := by
        simp only [natCharsCore]
        rw [if_neg (by omega : ¬ f + 1 = 0)]
        exact natCharsCore_append ..
      rw [hstep]
      simp
    refine ⟨?_, ?_, hne⟩
    · intro c hc
      apply hspec.1 c
      unfold natChars at hc
      simpa [hn] using hc
    · unfold natChars digitsVal
      simp only [hn, if_false]
      rw [hspec.2 0]
      simp

theorem spanDigits_exact : ∀ (ds rest : List Char),
    (∀ c ∈ ds, isDigitChar c = true) → stopsNum rest = true →
    spanDigits (ds ++ rest) = (ds, rest) := by
  intro ds
  induction ds with
  | nil =>
      intro rest _ hstop
      cases rest with
      | nil => rfl
      | cons c t =>
          simp only [stopsNum, Bool.not_eq_true'] at hstop
          simp [spanDigits, hstop]
  | cons c t ih =>
      intro rest hd hstop
      have hc : isDigitChar c = true := hd c (List.mem_cons_self c t)
      simp only [List.cons_append, spanDigits, hc, if_true]
      rw [List.append_eq, ih rest (fun x hx => hd x (List.mem_cons_of_mem c hx))
        hstop]

/-! ### Round-trip: strings -/

theorem hexVal_hexDigitChar :
    ∀ d : Fin 16, hexVal (hexDigitChar d.val) = d.val := by
  decide

theorem psb_done (rest : List Char) :
    parseStringBody ('\"' :: rest) = some ([], rest) := by
  conv_lhs => unfold parseStringBody
  rfl

theorem psb_escQuote (X : List Char) :
    parseStringBody ('\\' :: '\"' :: X) =
      (parseStringBody X).map (fun p => ('\"' :: p.1, p.2)) := by
  conv_lhs => unfold parseStringBody
  rfl

theorem psb_escBack (X : List Char) :
    parseStringBody ('\\' :: '\\' :: X) =
      (parseStringBody X).map (fun p => ('\\' :: p.1, p.2)) := by
  conv_lhs => unfold parseStringBody
  rfl

theorem psb_escN (X : List Char) :
    parseStringBody ('\\' :: 'n' :: X) =
      (parseStringBody X).map (fun p => ('\n' :: p.1, p.2)) := by
  conv_lhs => unfold parseStringBody
  rfl

theorem psb_escR (X : List Char) :
    parseStringBody ('\\' :: 'r' :: X) =
      (parseStringBody X).map (fun p => ('\r' :: p.1, p.2)) := by
  conv_lhs => unfold parseStringBody
  rfl

theorem psb_escT (X : List Char) :
    parseStringBody ('\\' :: 't' :: X) =
      (parseStringBody X).map (fun p => ('\t' :: p.1, p.2)) := by
  conv_lhs => unfold parseStringBody
  rfl

theorem psb_escB (X : List Char) :
    parseStringBody ('\\' :: 'b' :: X) =
      (parseStringBody X).map (fun p => ('\x08' :: p.1, p.2)) := by
  conv_lhs => unfold parseStringBody
  rfl

theorem psb_escF (X : List Char) :
    parseStringBody ('\\' :: 'f' :: X) =
      (parseStringBody X).map (fun p => ('\x0c' :: p.1, p.2)) := by
  conv_lhs => unfold parseStringBody
  rfl

theorem psb_escU (h1 h2 h3 h4 : Char) (X : List Char) :
    parseStringBody ('\\' :: 'u' :: h1 :: h2 :: h3 :: h4 :: X) =
      (parseStringBody X).map (fun p =>
        (Char.ofNat (((hexVal h1 * 16 + hexVal h2) * 16 + hexVal h3) * 16 +
          hexVal h4) :: p.1, p.2)) := by
  conv_lhs => unfold parseStringBody
  rfl

theorem psb_plain (c : Char) (X : List Char) (hq : ¬ c = '\"')
    (hb : ¬ c = '\\') :
    parseStringBody (c :: X) =
      (parseStringBody X).map (fun p => (c :: p.1, p.2)) := by
  conv_lhs => unfold parseStringBody
  rw [if_neg hq, if_neg hb]

theorem parseStringBody_escape : ∀ (s rest : List Char),
    parseStringBody (escChars s ++ '\"' :: rest) = some (s, rest) := by
  intro s
  induction s with
  | nil => intro rest; exact psb_done rest
  | cons c t ih =>
      intro rest
      by_cases h1 : c = '\"'
      · subst h1
        have hinput : escChars ('\"' :: t) ++ '\"' :: rest =
            '\\' :: '\"' :: (escChars t ++ '\"' :: rest) := by
          show (escChar '\"' ++ escChars t) ++ '\"' :: rest = _
          rw [show escChar '\"' = ['\\', '\"'] from rfl]
          simp
        rw [hinput, psb_escQuote, ih]
        rfl
      by_cases h2 : c = '\\'
      · subst h2
        have hinput : escChars ('\\' :: t) ++ '\"' :: rest =
            '\\' :: '\\' :: (escChars t ++ '\"' :: rest) := by
          show (escChar '\\' ++ escChars t) ++ '\"' :: rest = _
          rw [show escChar '\\' = ['\\', '\\'] from rfl]
          simp
        rw [hinput, psb_escBack, ih]
        rfl
      by_cases h3 : c = '\n'
      · subst h3
        have hinput : escChars ('\n' :: t) ++ '\"' :: rest =
            '\\' :: 'n' :: (escChars t ++ '\"' :: rest) := by
          show (escChar '\n' ++ escChars t) ++ '\"' :: rest = _
          rw [show escChar '\n' = ['\\', 'n'] from rfl]
          simp
        rw [hinput, psb_escN, ih]
        rfl
      by_cases h4 : c = '\r'
      · subst h4
        have hinput : escChars ('\r' :: t) ++ '\"' :: rest =
            '\\' :: 'r' :: (escChars t ++ '\"' :: rest) := by
          show (escChar '\r' ++ escChars t) ++ '\"' :: rest = _
          rw [show escChar '\r' = ['\\', 'r'] from rfl]
          simp
        rw [hinput, psb_escR, ih]
        rfl
      by_cases h5 : c = '\t'
      · subst h5
        have hinput : escChars ('\t' :: t) ++ '\"' :: rest =
            '\\' :: 't' :: (escChars t ++ '\"' :: rest) := by
          show (escChar '\t' ++ escChars t) ++ '\"' :: rest = _
          rw [show escChar '\t' = ['\\', 't'] from rfl]
          simp
        rw [hinput, psb_escT, ih]
        rfl
      by_cases h6 : c = '\x08'
      · subst h6
        have hinput : escChars ('\x08' :: t) ++ '\"' :: rest =
            '\\' :: 'b' :: (escChars t ++ '\"' :: rest) := by
          show (escChar '\x08' ++ escChars t) ++ '\"' :: rest = _
          rw [show escChar '\x08' = ['\\', 'b'] from rfl]
          simp
        rw [hinput, psb_escB, ih]
        rfl
      by_cases h7 : c = '\x0c'
      · subst h7
        have hinput : escChars ('\x0c' :: t) ++ '\"' :: rest =
            '\\' :: 'f' :: (escChars t ++ '\"' :: rest) := by
          show (escChar '\x0c' ++ escChars t) ++ '\"' :: rest = _
          rw [show escChar '\x0c' = ['\\', 'f'] from rfl]
          simp
        rw [hinput, psb_escF, ih]
        rfl
      by_cases h8 : c.toNat < 32
      · have hinput : escChars (c :: t) ++ '\"' :: rest =
            '\\' :: 'u' :: '0' :: '0' :: hexDigitChar (c.toNat / 16) ::
              hexDigitChar (c.toNat % 16) :: (escChars t ++ '\"' :: rest) := by
          show (escChar c ++ escChars t) ++ '\"' :: rest = _
          rw [show escChar c = ['\\', 'u', '0', '0', hexDigitChar (c.toNat / 16),
              hexDigitChar (c.toNat % 16)] from by
            simp only [escChar, if_neg h1, if_neg h2, if_neg h3, if_neg h4,
              if_neg h5, if_neg h6, if_neg h7, if_pos h8]]
          simp
        have e3 : hexVal (hexDigitChar (c.toNat / 16)) = c.toNat / 16 :=
          hexVal_hexDigitChar ⟨c.toNat / 16, by omega⟩
        have e4 : hexVal (hexDigitChar (c.toNat % 16)) = c.toNat % 16 :=
          hexVal_hexDigitChar ⟨c.toNat % 16, Nat.mod_lt _ (by omega)⟩
        have hchar : Char.ofNat (((hexVal '0' * 16 + hexVal '0') * 16 +
            hexVal (hexDigitChar (c.toNat / 16))) * 16 +
            hexVal (hexDigitChar (c.toNat % 16))) = c := by
          rw [e3, e4, show hexVal '0' = 0 from rfl]
          rw [show ((0 * 16 + 0) * 16 + c.toNat / 16) * 16 + c.toNat % 16 =
              c.toNat from by omega]
          exact Char.ofNat_toNat c
        rw [hinput, psb_escU, ih]
        simp only [Option.map]
        rw [hchar]
      · have hinput : escChars (c :: t) ++ '\"' :: rest =
            c :: (escChars t ++ '\"' :: rest) := by
          show (escChar c ++ escChars t) ++ '\"' :: rest = _
          rw [show escChar c = [c] from by
            simp only [escChar, if_neg h1, if_neg h2, if_neg h3, if_neg h4,
              if_neg h5, if_neg h6, if_neg h7, if_neg h8]]
          simp
        rw [hinput, psb_plain c _ h1 h2, ih]
        rfl

/-! ### Round-trip: values -/

theorem pj_null (fuel : Nat) (r : List Char) :
    parseJson (fuel + 1) ('n' :: 'u' :: 'l' :: 'l' :: r) = some (Json.null, r) := by
  conv_lhs => rw [parseJson.eq_def]
  rfl

theorem pj_true (fuel : Nat) (r : List Char) :
    parseJson (fuel + 1) ('t' :: 'r' :: 'u' :: 'e' :: r) =
      some (Json.bool true, r) := by
  conv_lhs => rw [parseJson.eq_def]
  rfl

theorem pj_false (fuel : Nat) (r : List Char) :
    parseJson (fuel + 1) ('f' :: 'a' :: 'l' :: 's' :: 'e' :: r) =
      some (Json.bool false, r) := by
  conv_lhs => rw [parseJson.eq_def]
  rfl

theorem pj_quote (fuel : Nat) (r : List Char) :
    parseJson (fuel + 1) ('\"' :: r) =
      (parseStringBody r).map (fun p => (Json.str ⟨p.1⟩, p.2)) := by
  conv_lhs => rw [parseJson.eq_def]
  rfl

theorem pj_neg (fuel : Nat) (r : List Char) :
    parseJson (fuel + 1) ('-' :: r) =
      (if (spanDigits r).1.isEmpty then none
       else some (Json.num (-(digitsVal (spanDigits r).1 : Int)),
         (spanDigits r).2)) := by
  conv_lhs => rw [parseJson.eq_def]
  rfl

theorem pj_digit (fuel : Nat) (c : Char) (r : List Char)
    (hd : isDigitChar c = true) :
    parseJson (fuel + 1) (c :: r) =
      some (Json.num (digitsVal (spanDigits (c :: r)).1 : Int),
        (spanDigits (c :: r)).2) := by
  have hn : ¬ c = 'n' := fun h => by subst h; revert hd; decide
  have ht : ¬ c = 't' := fun h => by subst h; revert hd; decide
  have hf : ¬ c = 'f' := fun h => by subst h; revert hd; decide
  have hq : ¬ c = '\"' := fun h => by subst h; revert hd; decide
  have hm : ¬ c = '-' := fun h => by subst h; revert hd; decide
  conv_lhs => rw [parseJson.eq_def]
  dsimp only
  rw [if_neg hn, if_neg ht, if_neg hf, if_neg hq, if_neg hm, if_pos hd]

theorem pj_lbracket (fuel : Nat) (r : List Char) :
    parseJson (fuel + 1) ('[' :: r) =
      (if headIs ']' r then some (Json.arr [], r.tail)
       else (parseElems fuel r).map (fun p => (Json.arr p.1, p.2))) := by
  conv_lhs => rw [parseJson.eq_def]
  rfl

theorem pj_lbraceHead (fuel : Nat) (r : List Char) :
    parseJson (fuel + 1) (lbrace :: r) =
      (if headIs rbrace r then some (Json.obj [], r.tail)
       else (parseFields fuel r).map (fun p => (Json.obj p.1, p.2))) := by
  conv_lhs => rw [parseJson.eq_def]
  rfl

theorem pe_step (fuel : Nat) (input : List Char) :
    parseElems (fuel + 1) input =
      (parseJson fuel input).bind (fun p =>
        if headIs ',' p.2 then
          (parseElems fuel p.2.tail).map (fun q => (p.1 :: q.1, q.2))
        else if headIs ']' p.2 then some ([p.1], p.2.tail)
        else none) := by
  conv_lhs => rw [parseElems.eq_def]

theorem pf_step (fuel : Nat) (input : List Char) :
    parseFields (fuel + 1) input =
      (if headIs '\"' input then
        (parseStringBody input.tail).bind (fun kp =>
          if headIs ':' kp.2 then
            (parseJson fuel kp.2.tail).bind (fun vp =>
              if headIs ',' vp.2 then
                (parseFields fuel vp.2.tail).map
                  (fun q => ((⟨kp.1⟩, vp.1) :: q.1, q.2))
              else if headIs rbrace vp.2 then some ([(⟨kp.1⟩, vp.1)], vp.2.tail)
              else none)
          else none)
      else none) := by
  conv_lhs => rw [parseFields.eq_def]

/-- First character of a printed value: one of the parser's entry
characters, in particular never `]`, never the closing brace, never a
comma. -/
theorem printJson_head (v : Json) :
    ∃ c t, printJson v = c :: t ∧
      (c = 'n' ∨ c = 't' ∨ c = 'f' ∨ c = '\"' ∨ c = '-' ∨
        isDigitChar c = true ∨ c = '[' ∨ c = lbrace) := by
  cases v with
  | null => exact ⟨'n', _, rfl, Or.inl rfl⟩
  | bool b =>
      cases b with
      | true => exact ⟨'t', _, rfl, Or.inr (Or.inl rfl)⟩
      | false => exact ⟨'f', _, rfl, Or.inr (Or.inr (Or.inl rfl))⟩
  | num i =>
      by_cases hneg : i < 0
      · refine ⟨'-', natChars i.natAbs, ?_, by tauto⟩
        show intChars i = _
        unfold intChars
        rw [if_pos hneg]
      · obtain ⟨hdig, _, hne⟩ := natChars_spec i.natAbs
        obtain ⟨c0, t0, hcons⟩ := List.exists_cons_of_ne_nil hne
        refine ⟨c0, t0, ?_, ?_⟩
        · show intChars i = _
          unfold intChars
          rw [if_neg hneg, hcons]
        · have : isDigitChar c0 = true := hdig c0 (hcons ▸ List.mem_cons_self c0 t0)
          tauto
  | str s => exact ⟨'\"', _, rfl, by tauto⟩
  | arr es => exact ⟨'[', _, rfl, by tauto⟩
  | obj fs => exact ⟨lbrace, _, rfl, by tauto⟩

theorem head_ne_rbracket {c : Char}
    (h : c = 'n' ∨ c = 't' ∨ c = 'f' ∨ c = '\"' ∨ c = '-' ∨
      isDigitChar c = true ∨ c = '[' ∨ c = lbrace) : ¬ c = ']' := by
  intro hc
  subst hc
  rcases h with h | h | h | h | h | h | h | h <;> revert h <;> decide

theorem head_ne_rbrace {c : Char}
    (h : c = 'n' ∨ c = 't' ∨ c = 'f' ∨ c = '\"' ∨ c = '-' ∨
      isDigitChar c = true ∨ c = '[' ∨ c = lbrace) : ¬ c = rbrace := by
  intro hc
  subst hc
  rcases h with h | h | h | h | h | h | h | h <;> revert h <;> decide

theorem jsize_pos : ∀ v : Json, 1 ≤ jsize v := by
  intro v
  cases v <;> simp [jsize]

theorem headIs_same (c : Char) (t : List Char) : headIs c (c :: t) = true := by
  simp [headIs]

theorem headIs_ne {c x : Char} (t : List Char) (h : ¬ x = c) :
    headIs c (x :: t) = false := by
  simp [headIs, h]

mutual

theorem jsize_le_printJson : ∀ v : Json, jsize v ≤ (printJson v).length
  | Json.null => by simp [jsize, printJson]
  | Json.bool true => by simp [jsize, printJson]
  | Json.bool false => by simp [jsize, printJson]
  | Json.num i => by
      have hne := (natChars_spec i.natAbs).2.2
      have hpos : 1 ≤ (natChars i.natAbs).length :=
        List.length_pos.mpr hne
      simp only [jsize, printJson, intChars]
      by_cases hneg : i < 0
      · rw [if_pos hneg]; simp only [List.length_cons]; omega
      · rw [if_neg hneg]; omega
  | Json.str s => by simp [jsize, printJson]
  | Json.arr es => by
      have h := jsizeL_le_printElems es
      simp only [jsize, printJson]
      simp
      omega
  | Json.obj fs => by
      have h := jsizeF_le_printFields fs
      simp only [jsize, printJson]
      simp
      omega

theorem jsizeL_le_printElems : ∀ vs : List Json,
    jsizeL vs ≤ (printElems vs).length + 1
  | [] => by simp [jsizeL, printElems]
  | [v] => by
      have h := jsize_le_printJson v
      simp only [jsizeL, printElems]
      simp [jsizeL]
      omega
  | v :: w :: ws => by
      have h1 := jsize_le_printJson v
      have h2 := jsizeL_le_printElems (w :: ws)
      simp only [jsizeL] at h2 ⊢
      simp only [printElems, List.length_append, List.length_cons]
      omega

theorem jsizeF_le_printFields : ∀ fs : List (String × Json),
    jsizeF fs ≤ (printFields fs).length + 1
  | [] => by simp [jsizeF, printFields]
  | [(k, v)] => by
      have h := jsize_le_printJson v
      simp only [jsizeF, printFields]
      simp [jsizeF]
      omega
  | (k, v) :: g :: gs => by
      have h1 := jsize_le_printJson v
      have h2 := jsizeF_le_printFields (g :: gs)
      simp only [jsizeF] at h2 ⊢
      simp only [printFields, List.length_append, List.length_cons]
      omega

end

/-- `pf_quote` specialization: a `"`-headed input. -/
theorem pf_quote (fuel : Nat) (X : List Char) :
    parseFields (fuel + 1) ('\"' :: X) =
      (parseStringBody X).bind (fun kp =>
        if headIs ':' kp.2 then
          (parseJson fuel kp.2.tail).bind (fun vp =>
            if headIs ',' vp.2 then
              (parseFields fuel vp.2.tail).map
                (fun q => ((⟨kp.1⟩, vp.1) :: q.1, q.2))
            else if headIs rbrace vp.2 then some ([(⟨kp.1⟩, vp.1)], vp.2.tail)
            else none)
        else none) := by
  conv_lhs => rw [parseFields.eq_def]
  rfl

theorem parse_print_aux : ∀ fuel : Nat,
    (∀ (v : Json) (rest : List Char), jsize v ≤ fuel → stopsNum rest = true →
        parseJson fuel (printJson v ++ rest) = some (v, rest)) ∧
    (∀ (vs : List Json) (rest : List Char), vs ≠ [] → jsizeL vs ≤ fuel →
        parseElems fuel (printElems vs ++ ']' :: rest) = some (vs, rest)) ∧
    (∀ (fs : List (String × Json)) (rest : List Char), fs ≠ [] →
        jsizeF fs ≤ fuel →
        parseFields fuel (printFields fs ++ rbrace :: rest) = some (fs, rest)) := by
  intro fuel
  induction fuel with
  | zero =>
      refine ⟨fun v rest hsz _ => ?_, fun vs rest hne hsz => ?_,
        fun fs rest hne hsz => ?_⟩
      · have := jsize_pos v
        omega
      · cases vs with
        | nil => exact absurd rfl hne
        | cons v t =>
            simp only [jsizeL] at hsz
            omega
      · cases fs with
        | nil => exact absurd rfl hne
        | cons f t =>
            obtain ⟨k, v⟩ := f
            simp only [jsizeF] at hsz
            omega
  | succ f ih =>
      obtain ⟨ihA, ihB, ihC⟩ := ih
      refine ⟨?_, ?_, ?_⟩
      · intro v rest hsz hstop
        cases v with
        | null => exact pj_null f rest
        | bool b =>
            cases b with
            | true => exact pj_true f rest
            | false => exact pj_false f rest
        | num i =>
            obtain ⟨hdig, hval, hne⟩ := natChars_spec i.natAbs
            by_cases hneg : i < 0
            · have hinput : printJson (Json.num i) ++ rest =
                  '-' :: (natChars i.natAbs ++ rest) := by
                show intChars i ++ rest = _
                unfold intChars
                rw [if_pos hneg]
                simp
              rw [hinput, pj_neg, spanDigits_exact _ _ hdig hstop]
              dsimp only
              rw [if_neg (by
                simp only [List.isEmpty_iff]
                exact hne)]
              rw [hval]
              have hi : -((i.natAbs : Int)) = i := by omega
              rw [hi]
            · obtain ⟨c0, t0, hcons⟩ := List.exists_cons_of_ne_nil hne
              have hc0 : isDigitChar c0 = true :=
                hdig c0 (by rw [hcons]; exact List.mem_cons_self c0 t0)
              have hinput : printJson (Json.num i) ++ rest = c0 :: (t0 ++ rest) := by
                show intChars i ++ rest = _
                unfold intChars
                rw [if_neg hneg, hcons]
                simp
              rw [hinput, pj_digit f c0 (t0 ++ rest) hc0]
              have hspan : spanDigits (c0 :: (t0 ++ rest)) =
                  (natChars i.natAbs, rest) := by
                rw [show c0 :: (t0 ++ rest) = natChars i.natAbs ++ rest from by
                  rw [hcons]; simp]
                exact spanDigits_exact _ _ hdig hstop
              rw [hspan]
              dsimp only
              rw [hval]
              have hi : ((i.natAbs : Int)) = i := by omega
              rw [hi]
        | str s =>
            have hinput : printJson (Json.str s) ++ rest =
                '\"' :: (escChars s.data ++ '\"' :: rest) := by
              show ('\"' :: escChars s.data ++ ['\"']) ++ rest = _
              simp
            rw [hinput, pj_quote, parseStringBody_escape]
            rfl
        | arr es =>
            cases es with
            | nil =>
                rw [show printJson (Json.arr []) ++ rest = '[' :: ']' :: rest
                  from rfl]
                rw [pj_lbracket]
                rfl
            | cons v vs =>
                obtain ⟨tl, htl⟩ : ∃ tl, printElems (v :: vs) =
                    printJson v ++ tl := by
                  cases vs with
                  | nil => exact ⟨[], by simp [printElems]⟩
                  | cons w ws =>
                      exact ⟨',' :: printElems (w :: ws), by simp [printElems]⟩
                obtain ⟨c0, t0, hshape, hhead⟩ := printJson_head v
                have hinput : printJson (Json.arr (v :: vs)) ++ rest =
                    '[' :: (printElems (v :: vs) ++ ']' :: rest) := by
                  show ('[' :: printElems (v :: vs) ++ [']']) ++ rest = _
                  simp
                rw [hinput, pj_lbracket]
                have hhd : headIs ']' (printElems (v :: vs) ++ ']' :: rest)
                    = false := by
                  rw [htl, hshape, List.cons_append]
                  exact headIs_ne _ (head_ne_rbracket hhead)
                rw [hhd]
                simp only [Bool.false_eq_true, if_false]
                rw [ihB (v :: vs) rest (by simp)
                  (by simp only [jsize] at hsz; simp only [jsizeL] at hsz ⊢; omega)]
                rfl
        | obj fs =>
            cases fs with
            | nil =>
                rw [show printJson (Json.obj []) ++ rest =
                    lbrace :: rbrace :: rest from by
                  show (lbrace :: printFields [] ++ [rbrace]) ++ rest = _
                  simp [printFields]]
                rw [pj_lbraceHead]
                rw [headIs_same]
                simp
            | cons f0 fs' =>
                obtain ⟨tl, htl⟩ : ∃ tl, printFields (f0 :: fs') =
                    '\"' :: tl := by
                  obtain ⟨k, v⟩ := f0
                  cases fs' with
                  | nil => exact ⟨_, rfl⟩
                  | cons g gs => exact ⟨_, rfl⟩
                have hinput : printJson (Json.obj (f0 :: fs')) ++ rest =
                    lbrace :: (printFields (f0 :: fs') ++ rbrace :: rest) := by
                  show (lbrace :: printFields (f0 :: fs') ++ [rbrace]) ++ rest = _
                  simp
                rw [hinput, pj_lbraceHead]
                have hhd : headIs rbrace (printFields (f0 :: fs') ++
                    rbrace :: rest) = false := by
                  rw [htl, List.cons_append]
                  exact headIs_ne _ (by decide)
                rw [hhd]
                simp only [Bool.false_eq_true, if_false]
                rw [ihC (f0 :: fs') rest (by simp)
                  (by simp only [jsize] at hsz; omega)]
                rfl
      · intro vs rest hne hsz
        cases vs with
        | nil => exact absurd rfl hne
        | cons v vs' =>
            cases vs' with
            | nil =>
                rw [show printElems [v] ++ ']' :: rest =
                    printJson v ++ ']' :: rest from by simp [printElems]]
                rw [pe_step, ihA v (']' :: rest)
                  (by simp only [jsizeL] at hsz; omega) rfl]
                rfl
            | cons w ws =>
                rw [show printElems (v :: w :: ws) ++ ']' :: rest =
                    printJson v ++ (',' ::
                      (printElems (w :: ws) ++ ']' :: rest)) from by
                  simp [printElems]]
                rw [pe_step, ihA v (',' :: (printElems (w :: ws) ++ ']' :: rest))
                  (by simp only [jsizeL] at hsz; omega) rfl]
                show (parseElems f (printElems (w :: ws) ++ ']' :: rest)).map
                    (fun q => (v :: q.1, q.2)) = some (v :: w :: ws, rest)
                rw [ihB (w :: ws) rest (by simp)
                  (by simp only [jsizeL] at hsz ⊢; omega)]
                rfl
      · intro fs rest hne hsz
        cases fs with
        | nil => exact absurd rfl hne
        | cons f0 fs' =>
            obtain ⟨k, v⟩ := f0
            cases fs' with
            | nil =>
                rw [show printFields [(k, v)] ++ rbrace :: rest =
                    '\"' :: (escChars k.data ++ '\"' ::
                      (':' :: (printJson v ++ rbrace :: rest))) from by
                  show ('\"' :: escChars k.data ++ '\"' :: ':' :: printJson v)
                      ++ rbrace :: rest = _
                  simp]
                rw [pf_quote, parseStringBody_escape]
                show (parseJson f (printJson v ++ rbrace :: rest)).bind _ = _
                rw [ihA v (rbrace :: rest)
                  (by simp only [jsizeF] at hsz; omega) rfl]
                rfl
            | cons g gs =>
                rw [show printFields ((k, v) :: g :: gs) ++ rbrace :: rest =
                    '\"' :: (escChars k.data ++ '\"' ::
                      (':' :: (printJson v ++ (',' ::
                        (printFields (g :: gs) ++ rbrace :: rest))))) from by
                  show ('\"' :: escChars k.data ++ '\"' :: ':' :: printJson v
                      ++ ',' :: printFields (g :: gs)) ++ rbrace :: rest = _
                  simp]
                rw [pf_quote, parseStringBody_escape]
                show (parseJson f (printJson v ++ (',' ::
                    (printFields (g :: gs) ++ rbrace :: rest)))).bind _ = _
                rw [ihA v (',' :: (printFields (g :: gs) ++ rbrace :: rest))
                  (by simp only [jsizeF] at hsz; omega) rfl]
                show (parseFields f (printFields (g :: gs) ++ rbrace :: rest)).map
                    (fun q => ((⟨k.data⟩, v) :: q.1, q.2)) =
                  some ((k, v) :: g :: gs, rest)
                rw [ihC (g :: gs) rest (by simp)
                  (by simp only [jsizeF] at hsz ⊢; omega)]
                rfl

/-- The parse of a canonical serialization is the original value. -/
theorem jsonParse_stringify (v : Json) : jsonParseStr (jsonStringify v) = some v := by
  unfold jsonParseStr jsonStringify
  have hA := (parse_print_aux (printJson v).length).1 v []
    (jsize_le_printJson v) rfl
  rw [List.append_nil] at hA
  simp only [data_mk]
  rw [hA]

/-! ### Claims about the canonical request and response translation -/

theorem createAdaptedRequest_body (r : ExpressReq) :
    (createAdaptedRequest r).body = adaptedBody r := rfl

theorem createAdaptedRequest_duplex (r : ExpressReq) :
    (createAdaptedRequest r).duplex =
      if (adaptedBody r).isSome then some "half" else none := rfl

theorem adaptedBody_not_in_methods (r : ExpressReq)
    (hc : bodyMethods.contains r.method = false) : adaptedBody r = none := by
  unfold adaptedBody
  rw [hc]
  rfl

/-- C7 (amended). A body is attached to the canonical request *only if*
the method is in the write/patch/WebDAV verb set, and whenever a body is
attached the duplex-streaming flag `"half"` is set (and it is absent
whenever no body is attached). The converse of the claimed equivalence
fails: a body-carrying method whose request supplies no body yields a
canonical request without a body. -/
theorem C7_body_only_for_body_methods (r : ExpressReq) :
    ((createAdaptedRequest r).body.isSome = true →
        bodyMethods.contains r.method = true ∧
        (createAdaptedRequest r).duplex = some "half") ∧
    ((createAdaptedRequest r).body.isSome = false →
        (createAdaptedRequest r).duplex = none) := by
  constructor
  · intro h
    constructor
    · by_cases hc : bodyMethods.contains r.method = true
      · exact hc
      · rw [createAdaptedRequest_body,
          adaptedBody_not_in_methods r (Bool.not_eq_true _ ▸ hc)] at h
        simp at h
    · rw [createAdaptedRequest_duplex]
      rw [createAdaptedRequest_body] at h
      rw [h]
      rfl
  · intro h
    rw [createAdaptedRequest_duplex]
    rw [createAdaptedRequest_body] at h
    rw [h]
    rfl

/-- Witness for `C7_body_only_for_body_methods`: a GET request gets no
body and no duplex flag; a POST with a parsed JSON object body gets both,
and the only-if direction reports its method in the verb set. -/
theorem C7_body_only_for_body_methods_witness :
    ((createAdaptedRequest
        ⟨"POST", "/api", "/api", none, none, false,
          some "application/json", JsBody.jsonVal (Json.obj [("a", Json.num 1)]),
          none, false, none⟩).body.isSome = true ∧
      bodyMethods.contains "POST" = true ∧
      (createAdaptedRequest
        ⟨"POST", "/api", "/api", none, none, false,
          some "application/json", JsBody.jsonVal (Json.obj [("a", Json.num 1)]),
          none, false, none⟩).duplex = some "half") ∧
    ((createAdaptedRequest
        ⟨"GET", "/api", "/api", none, none, false, none, JsBody.undef,
          none, false, none⟩).body.isSome = false ∧
      (createAdaptedRequest
        ⟨"GET", "/api", "/api", none, none, false, none, JsBody.undef,
          none, false, none⟩).duplex = none) :=
  ⟨⟨rfl,
    ((C7_body_only_for_body_methods
      ⟨"POST", "/api", "/api", none, none, false,
        some "application/json", JsBody.jsonVal (Json.obj [("a", Json.num 1)]),
        none, false, none⟩).1 rfl).1,
    ((C7_body_only_for_body_methods
      ⟨"POST", "/api", "/api", none, none, false,
        some "application/json", JsBody.jsonVal (Json.obj [("a", Json.num 1)]),
        none, false, none⟩).1 rfl).2⟩,
   ⟨rfl,
    (C7_body_only_for_body_methods
      ⟨"GET", "/api", "/api", none, none, false, none, JsBody.undef,
        none, false, none⟩).2 rfl⟩⟩

/-- Counterexample to C7 as stated: `POST` is in the body-carrying verb
set, yet a POST request whose `req.body` is absent (no parser matched)
produces a canonical request with *no* body — "body present if and only
if the method may carry one" fails in the if direction. -/
theorem C7_counterexample :
    bodyMethods.contains "POST" = true ∧
    (createAdaptedRequest
      ⟨"POST", "/x", "/x", none, none, false, none, JsBody.undef,
        none, false, none⟩).body = none :=
  ⟨rfl, rfl⟩

/-- C2 (amended). For a collection-create (MKCOL) request: whenever the
original request carries a truthy parsed body — of any shape and size —
the canonical request's body is normalized to the empty string, never the
original payload; but when the physical request has no body (`req.body`
unset) and no multipart spool applies, *no* body is attached at all. -/
theorem C2_mkcol_body_normalized (r : ExpressReq) (hm : r.method = "MKCOL") :
    (r.body.truthy = true →
        (createAdaptedRequest r).body = some (CanonBody.str "")) ∧
    (r.body.truthy = false →
      strIncludes (r.contentType.getD "") "multipart/form-data" = false →
        (createAdaptedRequest r).body = none) := by
  constructor
  · intro ht
    rw [createAdaptedRequest_body]
    unfold adaptedBody
    rw [hm]
    simp [ht]
    decide
  · intro ht hmp
    rw [createAdaptedRequest_body]
    unfold adaptedBody
    rw [hm]
    simp [ht, hmp]

/-- Witness for `C2_mkcol_body_normalized`: an MKCOL carrying a non-empty
XML buffer body is normalized to the empty-string body; an MKCOL with an
absent body and no multipart spool gets no body. -/
theorem C2_mkcol_body_normalized_witness :
    ((⟨"MKCOL", "/dav/f", "/dav/f", none, none, false, some "text/xml",
        JsBody.buf [60, 97, 62], none, false, none⟩ : ExpressReq).method
      = "MKCOL" ∧
     (JsBody.buf [60, 97, 62]).truthy = true ∧
     (createAdaptedRequest
        ⟨"MKCOL", "/dav/f", "/dav/f", none, none, false, some "text/xml",
          JsBody.buf [60, 97, 62], none, false, none⟩).body =
        some (CanonBody.str "")) ∧
    ((JsBody.undef).truthy = false ∧
     (createAdaptedRequest
        ⟨"MKCOL", "/dav/g", "/dav/g", none, none, false, none,
          JsBody.undef, none, false, none⟩).body = none) :=
  ⟨⟨rfl, rfl,
    (C2_mkcol_body_normalized
      ⟨"MKCOL", "/dav/f", "/dav/f", none, none, false, some "text/xml",
        JsBody.buf [60, 97, 62], none, false, none⟩ rfl).1 rfl⟩,
   ⟨rfl,
    (C2_mkcol_body_normalized
      ⟨"MKCOL", "/dav/g", "/dav/g", none, none, false, none,
        JsBody.undef, none, false, none⟩ rfl).2 rfl rfl⟩⟩

/-- Counterexample to C2 as stated: an MKCOL request whose payload is
physically absent (`req.body` was never set by any parser) does *not*
receive an empty-string body — the normalization sits behind
`if (expressReq.body)`, so the canonical request carries no body at all,
contradicting "always carries a body ... the empty string". -/
theorem C2_counterexample :
    (createAdaptedRequest
      ⟨"MKCOL", "/dav/new", "/dav/new", none, none, false, none,
        JsBody.undef, none, false, none⟩).body = none ∧
    (createAdaptedRequest
      ⟨"MKCOL", "/dav/new", "/dav/new", none, none, false, none,
        JsBody.undef, none, false, none⟩).body ≠ some (CanonBody.str "") := by
  refine ⟨rfl, ?_⟩
  intro h
  exact absurd h (by decide)

/-- C9. JSON round-trip through the Bridge: a parsed JSON body is
serialized onto the canonical request with `JSON.stringify`; when the
native application returns those same bytes with a JSON content type, the
response translation decodes them (`response.json()`) and re-encodes them
through the framework's JSON writer into exactly the same bytes, with
status and headers copied verbatim. -/
theorem C9_json_roundtrip (r : ExpressReq) (v : Json) (w : WorkerResponse)
    (hmeth : bodyMethods.contains r.method = true)
    (hmk : ¬ r.method = "MKCOL")
    (hct : strIncludes (r.contentType.getD "") "application/json" = true)
    (hnmp : strIncludes (r.contentType.getD "") "multipart/form-data" = false)
    (hbody : r.body = JsBody.jsonVal v)
    (htruthy : (JsBody.jsonVal v).truthy = true)
    (hobj : (JsBody.jsonVal v).isObjectType = true)
    (hwb : w.body = some (jsonStringify v))
    (hwct : strIncludes ((getHeader w.headers "content-type").getD "")
        "application/json" = true) :
    (createAdaptedRequest r).body = some (CanonBody.str (jsonStringify v)) ∧
    (convertWorkerResponseToExpress w).sent =
      ExpressSent.json (jsonStringify v) ∧
    (convertWorkerResponseToExpress w).status = w.status ∧
    (convertWorkerResponseToExpress w).headers = w.headers := by
  refine ⟨?_, ?_, rfl, rfl⟩
  · rw [createAdaptedRequest_body]
    unfold adaptedBody
    rw [hmeth]
    simp only [if_true]
    rw [if_neg hmk, hnmp]
    simp only [Bool.false_eq_true, if_false]
    rw [hbody]
    simp [hct, htruthy, hobj, JsBody.toJson]
  · unfold convertWorkerResponseToExpress
    rw [hwb]
    simp only [hwct, if_true]
    rw [jsonParse_stringify v]

/-- Witness for `C9_json_roundtrip` at a concrete parsed body and
response. -/
theorem C9_json_roundtrip_witness :
    (createAdaptedRequest
        ⟨"POST", "/api", "/api", none, none, false, some "application/json",
          JsBody.jsonVal (Json.obj [("a", Json.num 1)]), none, false,
          none⟩).body =
      some (CanonBody.str (jsonStringify (Json.obj [("a", Json.num 1)]))) ∧
    (convertWorkerResponseToExpress
        ⟨200, [("content-type", "application/json")],
          some (jsonStringify (Json.obj [("a", Json.num 1)]))⟩).sent =
      ExpressSent.json (jsonStringify (Json.obj [("a", Json.num 1)])) :=
  ⟨(C9_json_roundtrip
      ⟨"POST", "/api", "/api", none, none, false, some "application/json",
        JsBody.jsonVal (Json.obj [("a", Json.num 1)]), none, false, none⟩
      (Json.obj [("a", Json.num 1)])
      ⟨200, [("content-type", "application/json")],
        some (jsonStringify (Json.obj [("a", Json.num 1)]))⟩
      rfl (by decide) rfl rfl rfl rfl rfl rfl rfl).1,
   (C9_json_roundtrip
      ⟨"POST", "/api", "/api", none, none, false, some "application/json",
        JsBody.jsonVal (Json.obj [("a", Json.num 1)]), none, false, none⟩
      (Json.obj [("a", Json.num 1)])
      ⟨200, [("content-type", "application/json")],
        some (jsonStringify (Json.obj [("a", Json.num 1)]))⟩
      rfl (by decide) rfl rfl rfl rfl rfl rfl rfl).2.1⟩

end CloudPaste

